import Mathlib

/-!
# chaosLB: the IPVS manager of `pkg/manager/manager.go`

A shallow embedding of the reconciler (`Setup`, `setupService`, `addSNATRules`), the teardown
(`Cleanup`) and the monitor parsers (`parseIPVSStats`, `parseIPVSConnections`,
`getBusinessForService`) of the chaosLB agent.

* Go strings are Lean strings; the functions of package `strings` that the manager uses are
  written out below by structural recursion on the characters.
* Go `int` fields are `Int`; the manager formats them and converts them to `float64`
  (`roundFloat64`), it does no arithmetic on them.
* Every `exec.Command(...).Run()` / `.Output()` goes through `exec`, which asks a `Host`
  (the machine the agent runs on) for the outcome and appends the command to the log `calls`.
* Every `GaugeVec.WithLabelValues(...).Set(v)` appends a `Sample` to the log `metrics`; the
  value published for a key is the one of the last sample with that key (`published`).
  `WithLabelValues` panics when it is given a number of label values other than the number
  of label names the vector was created with in `metrics.NewMetrics` (`labelNames`).
* Gauge values stay symbolic (`Value`): the manager never computes with them, apart from
  converting an `int` to one.
* A Go run-time panic (index out of range, label values that do not fit) is the result
  `none`.
* The mutex and the log lines have no counterpart: the embedding is sequential.
-/

namespace ChaosLB

/-! ## Package `strings`, `strconv` and `fmt` -/

/-- White space as decided by Go `unicode.IsSpace`, the test `strings.Fields` and
`strings.TrimSpace` use. -/
def isSpace (c : Char) : Bool :=
  c.toNat = 9 || c.toNat = 10 || c.toNat = 11 || c.toNat = 12 || c.toNat = 13 ||
  c.toNat = 32 || c.toNat = 0x85 || c.toNat = 0xA0 || c.toNat = 0x1680 ||
  (0x2000 ≤ c.toNat && c.toNat ≤ 0x200A) || c.toNat = 0x2028 || c.toNat = 0x2029 ||
  c.toNat = 0x202F || c.toNat = 0x205F || c.toNat = 0x3000

/-- Scan of `strings.Fields`: `cur` holds, reversed, the characters of the field being read. -/
def fieldsFrom : List Char → List Char → List String
  | [], cur => if cur.isEmpty then [] else [String.mk cur.reverse]
  | c :: cs, cur =>
    if isSpace c then
      if cur.isEmpty then fieldsFrom cs [] else String.mk cur.reverse :: fieldsFrom cs []
    else fieldsFrom cs (c :: cur)

/-- Go `strings.Fields`: the maximal runs of characters that are not white space. -/
def Fields (s : String) : List String := fieldsFrom s.data []

/-- Pieces of a character list around every occurrence of `sep`. -/
def splitChars (sep : Char) : List Char → List (List Char)
  | [] => [[]]
  | c :: cs =>
    if c = sep then [] :: splitChars sep cs
    else
      match splitChars sep cs with
      | [] => [[c]]
      | p :: ps => (c :: p) :: ps

/-- Go `strings.Split(s, sep)` for a separator of one character, the only use the manager
makes of it (line feed, colon, slash). -/
def Split (s : String) (sep : Char) : List String := (splitChars sep s.data).map String.mk

/-- Go `strings.HasPrefix`. -/
def HasPrefix (s pre : String) : Bool := pre.data.isPrefixOf s.data

/-- Search of `sub` at every position of a character list. -/
def containsChars (sub : List Char) : List Char → Bool
  | [] => sub.isEmpty
  | c :: cs => sub.isPrefixOf (c :: cs) || containsChars sub cs

/-- Go `strings.Contains`. -/
def Contains (s substr : String) : Bool := containsChars substr.data s.data

/-- Go `strings.TrimSpace`. -/
def TrimSpace (s : String) : String :=
  String.mk ((s.data.dropWhile isSpace).reverse.dropWhile isSpace).reverse

/-- Go `strconv.Itoa`, which is also what the verb `%d` of `fmt.Sprintf` prints. -/
def Itoa (n : Int) : String := toString n

/-! ## Package `config` -/

/-- A real server of `config.Backend`. -/
structure Backend where
  IP : String
  Port : Int
  Weight : Int
deriving DecidableEq, Repr

/-- A virtual service of `config.Service`. -/
structure Service where
  VIP : String
  LocalPort : Int
  Backends : List Backend
  Protocol : String
  Interface : String
  Business : String
deriving DecidableEq, Repr

/-- The configuration document of `config.Config`. -/
structure Config where
  Services : List Service
  MetricsPort : Int
deriving DecidableEq, Repr

/-! ## The host, the command log and the gauges -/

/-- An external command: program name and arguments of `exec.Command`. -/
structure Cmd where
  name : String
  args : List String
deriving DecidableEq, Repr

/-- One address of `net.InterfaceAddrs`, with the three tests `utils.GetLocalIP` makes on it. -/
structure IfAddr where
  isIPNet : Bool
  loopback : Bool
  ipv4 : Bool
  ip : String
deriving DecidableEq, Repr

/-- The machine the agent runs on, with state `σ`: `command` gives, for a command, whether it
ran without error and what it printed; `interfaceAddrs` is `net.InterfaceAddrs` (`none` is an
error); `dialTimeout` tells whether a TCP connection to an address opens in time. -/
structure Host (σ : Type) where
  command : σ → Cmd → (Bool × String) × σ
  interfaceAddrs : σ → Option (List IfAddr) × σ
  dialTimeout : σ → String → Bool × σ

/-- The gauge vectors of `metrics.Metrics` the manager writes. -/
inductive Gauge where
  | BackendWeight
  | BackendStatus
  | VipStatus
  | SnatRulesCount
  | SysctlStatus
  | BackendConnections
  | ConnectionsTotal
  | PacketsInTotal
  | PacketsOutTotal
  | BytesInTotal
  | BytesOutTotal
deriving DecidableEq, Repr

/-- A gauge value, a `float64`, kept symbolic: `ofInt n` is the float whose value is the
integer `n` (the constants `1.0` and `0.0`, and the results of `float64`), `parsed f` is the
number `strconv.ParseFloat(f, 64)` returns for the text `f`, its error dropped. -/
inductive Value where
  | ofInt (n : Int)
  | parsed (field : String)
deriving DecidableEq, Repr

/-- The spacing of the `float64` numbers around a magnitude `a` above 2^53: the least power
of two, from `ulp` on, that leaves `a / ulp` below 2^53. A Go `int` has 64 bits, so the
search ends within 11 doublings. -/
def float64Ulp : Nat → Nat → Nat → Nat
  | 0, _, ulp => ulp
  | fuel + 1, a, ulp => if a / ulp < 2 ^ 53 then ulp else float64Ulp fuel a (2 * ulp)

/-- The integer a Go `int` becomes under the conversion `float64(n)`: itself up to 2^53 in
magnitude, beyond that the nearest number with 53 significant bits, a tie going to the one
whose last kept bit is 0. -/
def roundFloat64 (n : Int) : Int :=
  if n.natAbs ≤ 2 ^ 53 then n
  else
    let ulp := float64Ulp 11 n.natAbs 2
    let q := n.natAbs / ulp
    let r := n.natAbs % ulp
    let q1 := if 2 * r < ulp then q else if ulp < 2 * r then q + 1 else q + q % 2
    if n < 0 then -((q1 * ulp : Nat) : Int) else ((q1 * ulp : Nat) : Int)

/-- The Go conversion `float64(n)` of an `int`, as a gauge value. -/
def float64 (n : Int) : Value := Value.ofInt (roundFloat64 n)

/-- One `WithLabelValues(labels...).Set(value)` on a gauge vector. -/
structure Sample where
  gauge : Gauge
  labels : List String
  value : Value
deriving DecidableEq, Repr

/-- The fields of `IPVSManager`: `metrics` is the log of gauge writes, oldest first, and
`originalSysctls` a Go map kept as an association list with distinct keys. -/
structure IPVSManager where
  config : Config
  metrics : List Sample
  createdRules : List String
  createdVIPs : List String
  createdIfaces : List String
  createdSNATRules : List String
  originalSysctls : List (String × String)
deriving DecidableEq, Repr

/-- `NewIPVSManager`: empty ledger, no captured tunable, nothing published. -/
def NewIPVSManager (conf : Config) : IPVSManager :=
  { config := conf, metrics := [], createdRules := [], createdVIPs := [], createdIfaces := [],
    createdSNATRules := [], originalSysctls := [] }

/-- A run: the state of the host, the external commands issued so far (oldest first) and the
manager. -/
structure Sys (σ : Type) where
  world : σ
  calls : List Cmd
  m : IPVSManager

/-- Run an external command: `exec.Command(name, args...).Run()` or `.Output()`. The result is
(no error, standard output). -/
def exec {σ : Type} (H : Host σ) (c : Cmd) (s : Sys σ) : (Bool × String) × Sys σ :=
  ((H.command s.world c).1, { s with world := (H.command s.world c).2, calls := s.calls ++ [c] })

/-- The label names every gauge vector is created with in `metrics.NewMetrics`. -/
def labelNames : Gauge → List String
  | Gauge.BackendWeight => ["vip", "backend", "business"]
  | Gauge.BackendStatus => ["vip", "backend", "business"]
  | Gauge.VipStatus => ["vip", "interface", "business"]
  | Gauge.SnatRulesCount => ["business"]
  | Gauge.SysctlStatus => ["parameter"]
  | Gauge.BackendConnections => ["vip", "backend", "business"]
  | Gauge.ConnectionsTotal => ["service", "business"]
  | Gauge.PacketsInTotal => ["service", "business"]
  | Gauge.PacketsOutTotal => ["service", "business"]
  | Gauge.BytesInTotal => ["service", "business"]
  | Gauge.BytesOutTotal => ["service", "business"]

/-- The record of a gauge write whose label values have been accepted. The reconciler and the
statistics pass write with as many label values as the vector has names (see
`labels_accepted`), and are embedded with this write. -/
def setGauge {σ : Type} (g : Gauge) (labels : List String) (v : Value) (s : Sys σ) : Sys σ :=
  { s with m := { s.m with metrics := s.m.metrics ++ [⟨g, labels, v⟩] } }

/-- A gauge write in full, `gauge.WithLabelValues(labels...).Set(v)`: `WithLabelValues` of
the Prometheus client panics (`none`) unless it is given exactly as many label values as the
vector has label names. -/
def withLabelValuesSet {σ : Type} (g : Gauge) (labels : List String) (v : Value) (s : Sys σ) :
    Option (Sys σ) :=
  if labels.length = (labelNames g).length then some (setGauge g labels v s) else none

/-- The value a log of gauge writes leaves published for a key: that of the last write. -/
def published (log : List Sample) (g : Gauge) (labels : List String) : Option Value :=
  (log.reverse.find? (fun x => x.gauge = g ∧ x.labels = labels)).map Sample.value

/-- Assignment `m[k] = v` of a Go map. -/
def mapSet (k v : String) : List (String × String) → List (String × String)
  | [] => [(k, v)]
  | e :: rest => if e.1 = k then (k, v) :: rest else e :: mapSet k v rest

/-- Go leaves the order of `range` over a map unspecified. The maps of the manager hold at
most two keys, so an order is the listing or its reverse. -/
def rangeOrder {α : Type} (rev : Bool) (l : List α) : List α := if rev then l.reverse else l

/-! ## Package `utils` -/

/-- Loop of `utils.GetLocalIP`: the first address that is an IP network, not loopback, IPv4. -/
def firstLocalIP : List IfAddr → Option String
  | [] => none
  | a :: rest => if a.isIPNet && !a.loopback && a.ipv4 then some a.ip else firstLocalIP rest

/-- `utils.GetLocalIP`; `none` is an error. -/
def GetLocalIP {σ : Type} (H : Host σ) (s : Sys σ) : Option String × Sys σ :=
  (((H.interfaceAddrs s.world).1).bind firstLocalIP,
    { s with world := (H.interfaceAddrs s.world).2 })

/-! ## Package `manager`: the reconciler -/

/-- Loop of `getBusinessForService` over `m.config.Services`. -/
def businessOf : List Service → String → String
  | [], _ => "unknown"
  | svc :: rest, service =>
    if svc.VIP ++ ":" ++ Itoa svc.LocalPort = service then
      if svc.Business ≠ "" then svc.Business else "default"
    else businessOf rest service

/-- `getBusinessForService`: the business label of the first configured service whose
`VIP:LocalPort` is `service`. -/
def getBusinessForService (m : IPVSManager) (service : String) : String :=
  businessOf m.config.Services service

/-- The map literal `sysctlParams` of `configureSysctl`. -/
def sysctlParams : List (String × String) :=
  [("net.ipv4.vs.conntrack", "1"), ("net.ipv4.ip_forward", "1")]

/-- Body of the loop of `configureSysctl`, over the parameters in the order given: query the
tunable, keep the trimmed answer in `originalSysctls` when the query ran without error, then
overwrite the tunable; a failed overwrite ends `configureSysctl` with an error. -/
def configureSysctlLoop {σ : Type} (H : Host σ) :
    List (String × String) → Sys σ → Option String × Sys σ
  | [], s => (none, s)
  | p :: rest, s =>
    let q := exec H ⟨"sysctl", ["-n", p.1]⟩ s
    let s1 : Sys σ :=
      if q.1.1 then
        { q.2 with m := { q.2.m with
            originalSysctls := mapSet p.1 (TrimSpace q.1.2) q.2.m.originalSysctls } }
      else q.2
    let w := exec H ⟨"sysctl", ["-w", p.1 ++ "=" ++ p.2]⟩ s1
    if w.1.1 then configureSysctlLoop H rest (setGauge Gauge.SysctlStatus [p.1] (Value.ofInt 1) w.2)
    else (some ("failed to set " ++ p.1 ++ "=" ++ p.2), w.2)

/-- `configureSysctl`; `rev` fixes the order in which Go ranges over `sysctlParams`. The
result `none` is the nil error. -/
def configureSysctl {σ : Type} (H : Host σ) (rev : Bool) (s : Sys σ) : Option String × Sys σ :=
  configureSysctlLoop H (rangeOrder rev sysctlParams) s

/-- `createDummyInterface`: nothing to do when `ip link show` finds the interface; else create
it, bring it up and record it in `createdIfaces`. -/
def createDummyInterface {σ : Type} (H : Host σ) (iface : String) (s : Sys σ) :
    Option String × Sys σ :=
  let q := exec H ⟨"ip", ["link", "show", iface]⟩ s
  if q.1.1 then (none, q.2)
  else
    let a := exec H ⟨"ip", ["link", "add", iface, "type", "dummy"]⟩ q.2
    if a.1.1 then
      let u := exec H ⟨"ip", ["link", "set", "dev", iface, "up"]⟩ a.2
      if u.1.1 then
        (none, { u.2 with m := { u.2.m with createdIfaces := u.2.m.createdIfaces ++ [iface] } })
      else (some ("bring up interface " ++ iface), u.2)
    else (some ("create dummy interface " ++ iface), a.2)

/-- The protocol of a service as `setupService` defaults it: `tcp` unless configured. -/
def protoOf (svc : Service) : String := if svc.Protocol ≠ "" then svc.Protocol else "tcp"

/-- The interface of a service as `setupService` and `updateVIPStatus` default it: `ipvs0`
unless configured. -/
def ifaceOf (svc : Service) : String := if svc.Interface ≠ "" then svc.Interface else "ipvs0"

/-- The business label of a service as `setupService`, `addSNATRules` and `updateVIPStatus`
default it: `default` unless configured. -/
def businessLabel (svc : Service) : String := if svc.Business = "" then "default" else svc.Business

/-- The part `// Add VIP to interface` of `setupService`: bind `VIP/32` unless the addresses
of the interface already show it; a failed bind is an error, otherwise the key
`VIP/interface` is appended to `createdVIPs`. -/
def addVIPToInterface {σ : Type} (H : Host σ) (svc : Service) (s : Sys σ) :
    Option String × Sys σ :=
  let record := fun (s : Sys σ) =>
    (none, { s with m := { s.m with
      createdVIPs := s.m.createdVIPs ++ [svc.VIP ++ "/" ++ ifaceOf svc] } })
  let o := exec H ⟨"ip", ["addr", "show", "dev", ifaceOf svc]⟩ s
  if Contains o.1.2 (svc.VIP ++ "/32") then record o.2
  else
    let a := exec H ⟨"ip", ["addr", "add", svc.VIP ++ "/32", "dev", ifaceOf svc]⟩ o.2
    if a.1.1 then record a.2 else (some "add VIP to interface", a.2)

/-- The part `// Add virtual service` of `setupService`: create the virtual service with
round-robin scheduling unless listing it succeeds; a failed create is an error, otherwise the
key `VIP:LocalPort:protocol` is appended to `createdRules`. -/
def addVirtualService {σ : Type} (H : Host σ) (svc : Service) (s : Sys σ) :
    Option String × Sys σ :=
  let record := fun (s : Sys σ) =>
    (none, { s with m := { s.m with createdRules := s.m.createdRules ++
      [svc.VIP ++ ":" ++ Itoa svc.LocalPort ++ ":" ++ protoOf svc] } })
  let l := exec H ⟨"ipvsadm", ["-L", "-n", "-t", svc.VIP ++ ":" ++ Itoa svc.LocalPort]⟩ s
  if l.1.1 then record l.2
  else
    let a := exec H ⟨"ipvsadm", ["-A", "-t", svc.VIP ++ ":" ++ Itoa svc.LocalPort, "-s", "rr"]⟩ l.2
    if a.1.1 then record a.2 else (some "add virtual service", a.2)

/-- The part `// Add real servers` of `setupService`, the loop over `svc.Backends`: add the
real server with its weight, 1 standing in for a configured 0, and publish its status and
its weight. The outcome of the add call is not looked at. -/
def addRealServers {σ : Type} (H : Host σ) (svc : Service) : List Backend → Sys σ → Sys σ
  | [], s => s
  | backend :: rest, s =>
    let weight : Int := if backend.Weight = 0 then 1 else backend.Weight
    let vipLabel := svc.VIP ++ ":" ++ Itoa svc.LocalPort
    let backendLabel := backend.IP ++ ":" ++ Itoa backend.Port
    let a := exec H ⟨"ipvsadm", ["-a", "-t", vipLabel, "-r", backendLabel, "-m", "-w",
      Itoa weight]⟩ s
    addRealServers H svc rest
      (setGauge Gauge.BackendWeight [vipLabel, backendLabel, businessLabel svc]
        (float64 weight)
        (setGauge Gauge.BackendStatus [vipLabel, backendLabel, businessLabel svc]
          (Value.ofInt 1) a.2))

/-- `setupService`: the interface, the VIP binding, the virtual service, the real servers, in
that order; the first error ends it. -/
def setupService {σ : Type} (H : Host σ) (svc : Service) (s : Sys σ) : Option String × Sys σ :=
  let d := createDummyInterface H (ifaceOf svc) s
  match d.1 with
  | some e => (some e, d.2)
  | none =>
    let v := addVIPToInterface H svc d.2
    match v.1 with
    | some e => (some e, v.2)
    | none =>
      let a := addVirtualService H svc v.2
      match a.1 with
      | some e => (some e, a.2)
      | none =>
        (none, setGauge Gauge.VipStatus [svc.VIP, ifaceOf svc, businessLabel svc] (Value.ofInt 1)
          (addRealServers H svc svc.Backends a.2))

/-- `addSNATRules`: add the source-NAT rule unless `iptables -C` finds it, record it in
`createdSNATRules` and publish the length of that list. -/
def addSNATRules {σ : Type} (H : Host σ) (svc : Service) (s : Sys σ) : Option String × Sys σ :=
  let g := GetLocalIP H s
  match g.1 with
  | none => (some "no valid local IP found", g.2)
  | some localIP =>
    let tail := " POSTROUTING -m ipvs --vaddr " ++ svc.VIP ++ " --vport " ++ Itoa svc.LocalPort ++
      " -j SNAT --to-source " ++ localIP
    let record := fun (s : Sys σ) =>
      let rules := s.m.createdSNATRules ++ [svc.VIP ++ ":" ++ Itoa svc.LocalPort ++ "->" ++ localIP]
      (none, setGauge Gauge.SnatRulesCount [businessLabel svc] (float64 rules.length)
        { s with m := { s.m with createdSNATRules := rules } })
    let c := exec H ⟨"iptables", Fields ("-t nat -C" ++ tail)⟩ g.2
    if c.1.1 then record c.2
    else
      let a := exec H ⟨"iptables", Fields ("-t nat -A" ++ tail)⟩ c.2
      if a.1.1 then record a.2 else (some "add SNAT rule", a.2)

/-- The loop `for _, svc := range m.config.Services` of `Setup`: the first error ends it. -/
def setupServices {σ : Type} (H : Host σ) : List Service → Sys σ → Option String × Sys σ
  | [], s => (none, s)
  | svc :: rest, s =>
    let r := setupService H svc s
    match r.1 with
    | some e => (some ("setup service " ++ svc.VIP ++ ":" ++ Itoa svc.LocalPort ++ ": " ++ e), r.2)
    | none =>
      let n := addSNATRules H svc r.2
      match n.1 with
      | some e =>
        (some ("add SNAT rules for " ++ svc.VIP ++ ":" ++ Itoa svc.LocalPort ++ ": " ++ e), n.2)
      | none => setupServices H rest n.2

/-- `Setup`: the tunables, the two kernel modules, then every configured service. -/
def Setup {σ : Type} (H : Host σ) (rev : Bool) (s : Sys σ) : Option String × Sys σ :=
  let c := configureSysctl H rev s
  match c.1 with
  | some e => (some ("configure sysctl: " ++ e), c.2)
  | none =>
    let p := exec H ⟨"modprobe", ["ip_vs"]⟩ c.2
    let d := exec H ⟨"modprobe", ["dummy"]⟩ p.2
    setupServices H d.2.m.config.Services d.2

/-! ## Package `manager`: the teardown -/

/-- First loop of `Cleanup`: split each key of `createdRules` at the colons and, when there
are at least two parts, delete the virtual service `parts[0]:parts[1]`. -/
def deleteRules {σ : Type} (H : Host σ) : List String → Sys σ → Sys σ
  | [], s => s
  | rule :: rest, s =>
    match Split rule ':' with
    | p0 :: p1 :: _ => deleteRules H rest (exec H ⟨"ipvsadm", ["-D", "-t", p0 ++ ":" ++ p1]⟩ s).2
    | _ => deleteRules H rest s

/-- Second loop of `Cleanup`: split each key of `createdVIPs` at the slashes and, when there
are exactly two parts, unbind `parts[0]/32` from the interface `parts[1]`. -/
def deleteVIPs {σ : Type} (H : Host σ) : List String → Sys σ → Sys σ
  | [], s => s
  | vipKey :: rest, s =>
    match Split vipKey '/' with
    | [p0, p1] => deleteVIPs H rest (exec H ⟨"ip", ["addr", "del", p0 ++ "/32", "dev", p1]⟩ s).2
    | _ => deleteVIPs H rest s

/-- Third loop of `Cleanup`: delete every interface of `createdIfaces`. -/
def deleteIfaces {σ : Type} (H : Host σ) : List String → Sys σ → Sys σ
  | [], s => s
  | iface :: rest, s => deleteIfaces H rest (exec H ⟨"ip", ["link", "del", iface]⟩ s).2

/-- Loop of `removeSNATRules` over the configured services. -/
def deleteSNATRules {σ : Type} (H : Host σ) (localIP : String) : List Service → Sys σ → Sys σ
  | [], s => s
  | svc :: rest, s =>
    deleteSNATRules H localIP rest
      (exec H ⟨"iptables", Fields ("-t nat -D POSTROUTING -m ipvs --vaddr " ++ svc.VIP ++
        " --vport " ++ Itoa svc.LocalPort ++ " -j SNAT --to-source " ++ localIP)⟩ s).2

/-- `removeSNATRules`: one `iptables -D` for every service of `m.config.Services`; the local
address is resolved again, the empty string standing in when that fails. -/
def removeSNATRules {σ : Type} (H : Host σ) (s : Sys σ) : Sys σ :=
  let g := GetLocalIP H s
  deleteSNATRules H (g.1.getD "") g.2.m.config.Services g.2

/-- Loop of `restoreSysctl`: write every captured value back. -/
def restoreSysctlLoop {σ : Type} (H : Host σ) : List (String × String) → Sys σ → Sys σ
  | [], s => s
  | p :: rest, s => restoreSysctlLoop H rest (exec H ⟨"sysctl", ["-w", p.1 ++ "=" ++ p.2]⟩ s).2

/-- `restoreSysctl`; `rev` fixes the order in which Go ranges over `originalSysctls`. -/
def restoreSysctl {σ : Type} (H : Host σ) (rev : Bool) (s : Sys σ) : Sys σ :=
  restoreSysctlLoop H (rangeOrder rev s.m.originalSysctls) s

/-- `Cleanup`: virtual services, VIP bindings, interfaces, NAT rules, tunables. It has no
result and no outcome of a command is looked at. -/
def Cleanup {σ : Type} (H : Host σ) (rev : Bool) (s : Sys σ) : Sys σ :=
  let s1 := deleteRules H s.m.createdRules s
  let s2 := deleteVIPs H s1.m.createdVIPs s1
  let s3 := deleteIfaces H s2.m.createdIfaces s2
  restoreSysctl H rev (removeSNATRules H s3)

/-! ## Package `manager`: the monitor -/

/-- `checkBackendHealth`: `true` when the connection opens (nil error). -/
def checkBackendHealth {σ : Type} (H : Host σ) (backend : String) (s : Sys σ) : Bool × Sys σ :=
  ((H.dialTimeout s.world backend).1, { s with world := (H.dialTimeout s.world backend).2 })

/-- Body of the loop of `parseIPVSStats` for one line: a line of fewer than six fields, or
whose first field has no colon, is passed over. -/
def statsLine {σ : Type} (line : String) (s : Sys σ) : Sys σ :=
  match Fields line with
  | service :: f1 :: f2 :: f3 :: f4 :: f5 :: _ =>
    if Contains service ":" then
      let business := getBusinessForService s.m service
      setGauge Gauge.BytesOutTotal [service, business] (Value.parsed f5)
        (setGauge Gauge.BytesInTotal [service, business] (Value.parsed f4)
          (setGauge Gauge.PacketsOutTotal [service, business] (Value.parsed f3)
            (setGauge Gauge.PacketsInTotal [service, business] (Value.parsed f2)
              (setGauge Gauge.ConnectionsTotal [service, business] (Value.parsed f1) s))))
    else s
  | _ => s

/-- `parseIPVSStats`. -/
def parseIPVSStats {σ : Type} (output : String) (s : Sys σ) : Sys σ :=
  (Split output '\n').foldl (fun acc line => statsLine line acc) s

/-- Body of the loop of `parseIPVSConnections` for one line, from the current service and the
run to the next ones. An index past the end of `fields` is a panic, and so is a gauge write
whose label values do not fit the vector: `none`. -/
def connLine {σ : Type} (H : Host σ) (line : String) (currentService : String) (s : Sys σ) :
    Option (String × Sys σ) :=
  let fields := Fields line
  match fields with
  | [] => some (currentService, s)
  | f0 :: _ =>
    if f0 = "Prot" ∨ f0 = "RemoteAddress:Port" ∨ f0 = "IP" then some (currentService, s)
    else if f0 = "TCP" ∨ f0 = "UDP" then
      match fields[1]? with
      | some f1 => some (f1, s)
      | none => none
    else if HasPrefix line "  ->" ∧ currentService ≠ "" then
      match fields[1]?, fields[3]?, fields[4]?, fields[5]? with
      | some backend, some weight, some active, some inact =>
        let business := getBusinessForService s.m currentService
        (withLabelValuesSet Gauge.BackendConnections
            [currentService, backend, "active", business] (Value.parsed active) s).bind fun s1 =>
        (withLabelValuesSet Gauge.BackendConnections
            [currentService, backend, "inactive", business] (Value.parsed inact) s1).bind fun s2 =>
        (withLabelValuesSet Gauge.BackendWeight
            [currentService, backend, business] (Value.parsed weight) s2).bind fun s3 =>
        let h := checkBackendHealth H backend s3
        (withLabelValuesSet Gauge.BackendStatus [currentService, backend, business]
            (Value.ofInt (if h.1 then 1 else 0)) h.2).map fun s4 => (currentService, s4)
      | _, _, _, _ => none
    else some (currentService, s)

/-- The loop of `parseIPVSConnections` over the lines. -/
def connLines {σ : Type} (H : Host σ) : List String → String → Sys σ → Option (Sys σ)
  | [], _, s => some s
  | line :: rest, currentService, s =>
    match connLine H line currentService s with
    | some next => connLines H rest next.1 next.2
    | none => none

/-- `parseIPVSConnections`; `none` when the scan panics. -/
def parseIPVSConnections {σ : Type} (H : Host σ) (output : String) (s : Sys σ) :
    Option (Sys σ) :=
  connLines H (Split output '\n') "" s

/-- Loop of `updateVIPStatus` over the configured services: the status of a service is 1 when
the address listing contains `VIP/32`, else 0. -/
def updateVIPStatusLoop {σ : Type} (output : String) : List Service → Sys σ → Sys σ
  | [], s => s
  | svc :: rest, s =>
    updateVIPStatusLoop output rest
      (setGauge Gauge.VipStatus [svc.VIP, ifaceOf svc, businessLabel svc]
        (Value.ofInt (if Contains output (svc.VIP ++ "/32") then 1 else 0)) s)

/-- `updateVIPStatus`: list the addresses of the host, then publish the status of every
configured service. -/
def updateVIPStatus {σ : Type} (H : Host σ) (s : Sys σ) : Sys σ :=
  updateVIPStatusLoop (exec H ⟨"ip", ["addr", "show"]⟩ s).1.2
    (exec H ⟨"ip", ["addr", "show"]⟩ s).2.m.config.Services (exec H ⟨"ip", ["addr", "show"]⟩ s).2


/-! ## The statement of the statistics pass, in the words of the specification -/

/-- Field `i` (counted from 0) of a line cut by `Fields`; the empty string when the line has
fewer fields. -/
def fieldAt (line : String) (i : Nat) : String := (Fields line).getD i ""

/-- A line the statistics pass republishes: at least six fields, the first with a colon. -/
def isStatsLine (line : String) : Bool :=
  decide (6 ≤ (Fields line).length) && Contains (fieldAt line 0) ":"

/-- The five gauges the statistics pass is to republish for a line: connections, packets in
and out, bytes in and out from the fields 2 to 6, keyed by the first field and its
business label; nothing for any other line. -/
def statsSamples (m : IPVSManager) (line : String) : List Sample :=
  if isStatsLine line then
    [⟨Gauge.ConnectionsTotal, [fieldAt line 0, getBusinessForService m (fieldAt line 0)],
        Value.parsed (fieldAt line 1)⟩,
     ⟨Gauge.PacketsInTotal, [fieldAt line 0, getBusinessForService m (fieldAt line 0)],
        Value.parsed (fieldAt line 2)⟩,
     ⟨Gauge.PacketsOutTotal, [fieldAt line 0, getBusinessForService m (fieldAt line 0)],
        Value.parsed (fieldAt line 3)⟩,
     ⟨Gauge.BytesInTotal, [fieldAt line 0, getBusinessForService m (fieldAt line 0)],
        Value.parsed (fieldAt line 4)⟩,
     ⟨Gauge.BytesOutTotal, [fieldAt line 0, getBusinessForService m (fieldAt line 0)],
        Value.parsed (fieldAt line 5)⟩]
  else []

/-- The last line of a statistics text that is republished for a service. -/
def lastStatsLine (lines : List String) (service : String) : Option String :=
  lines.reverse.find? (fun l => isStatsLine l && decide (fieldAt l 0 = service))

/-- The gauges of the statistics pass. -/
def statsGauges : List Gauge :=
  [Gauge.ConnectionsTotal, Gauge.PacketsInTotal, Gauge.PacketsOutTotal, Gauge.BytesInTotal,
    Gauge.BytesOutTotal]

/-- The field (counted from 0) of a statistics line that a gauge of the pass is read from. -/
def statsField : Gauge → Nat
  | Gauge.ConnectionsTotal => 1
  | Gauge.PacketsInTotal => 2
  | Gauge.PacketsOutTotal => 3
  | Gauge.BytesInTotal => 4
  | Gauge.BytesOutTotal => 5
  | _ => 0

/-- A host on which every command runs without error and prints nothing, the only address is
192.168.0.9 and every probe connects. -/
def okHost : Host Unit :=
  { command := fun w _ => ((true, ""), w),
    interfaceAddrs := fun w => (some [⟨true, false, true, "192.168.0.9"⟩], w),
    dialTimeout := fun w _ => (true, w) }

/-- A configured service: 10.0.0.1:80 with one real server of weight 0, all else unset. -/
def exampleService : Service :=
  { VIP := "10.0.0.1", LocalPort := 80, Backends := [⟨"10.0.0.2", 8080, 0⟩], Protocol := "",
    Interface := "", Business := "" }

/-- A run that starts on a fresh manager for a configuration. -/
def freshSys (services : List Service) : Sys Unit :=
  { world := (), calls := [], m := NewIPVSManager ⟨services, 9100⟩ }

/-! ## The statements of the reconciler and the teardown -/

/-- The commands a run has issued since an earlier state of it. -/
def issued {σ : Type} (before after : Sys σ) : List Cmd := after.calls.drop before.calls.length

/-- The gauge writes a run has made since an earlier state of it. -/
def written {σ : Type} (before after : Sys σ) : List Sample :=
  after.m.metrics.drop before.m.metrics.length

/-- The weight of a real server in the words of the specification: the configured weight,
1 when that is 0. -/
def effectiveWeight (b : Backend) : Int := if b.Weight = 0 then 1 else b.Weight

/-- The real-server add call for a backend of a service, with its effective weight. -/
def serverAdd (svc : Service) (b : Backend) : Cmd :=
  ⟨"ipvsadm", ["-a", "-t", svc.VIP ++ ":" ++ Itoa svc.LocalPort, "-r", b.IP ++ ":" ++ Itoa b.Port,
    "-m", "-w", Itoa (effectiveWeight b)]⟩

/-- The backend-weight gauge write for a backend of a service, with its effective weight. -/
def weightSample (svc : Service) (b : Backend) : Sample :=
  ⟨Gauge.BackendWeight,
    [svc.VIP ++ ":" ++ Itoa svc.LocalPort, b.IP ++ ":" ++ Itoa b.Port, businessLabel svc],
    float64 (effectiveWeight b)⟩

/-- A real-server add call: `ipvsadm -a ...`. -/
def isServerAdd (c : Cmd) : Bool := c.name = "ipvsadm" && c.args.head? = some "-a"

/-- The key `setupService` records in `createdRules`: `VIP:LocalPort:protocol`, the protocol
being `tcp` unless configured. -/
def serviceKey (svc : Service) : String :=
  svc.VIP ++ ":" ++ Itoa svc.LocalPort ++ ":" ++ protoOf svc

/-- The key `setupService` records in `createdVIPs`: `VIP/interface`. -/
def vipKey (svc : Service) : String := svc.VIP ++ "/" ++ ifaceOf svc

/-- The commands of `createDummyInterface` for an interface: the query; the create when the
query did not find the interface (`found` false); the bring-up when the create ran without
error (`added`). -/
def ifaceCalls (iface : String) (found added : Bool) : List Cmd :=
  ⟨"ip", ["link", "show", iface]⟩ ::
    if found then []
    else ⟨"ip", ["link", "add", iface, "type", "dummy"]⟩ ::
      if added then [⟨"ip", ["link", "set", "dev", iface, "up"]⟩] else []

/-- The commands of the VIP step of `setupService`: the query, and the bind when the query
did not show the address (`bound` false). -/
def vipCalls (svc : Service) (bound : Bool) : List Cmd :=
  ⟨"ip", ["addr", "show", "dev", ifaceOf svc]⟩ ::
    if bound then [] else [⟨"ip", ["addr", "add", svc.VIP ++ "/32", "dev", ifaceOf svc]⟩]

/-- The commands of the virtual-service step of `setupService`: the listing, and the create
when the listing failed (`listed` false). -/
def serviceCalls (svc : Service) (listed : Bool) : List Cmd :=
  ⟨"ipvsadm", ["-L", "-n", "-t", svc.VIP ++ ":" ++ Itoa svc.LocalPort]⟩ ::
    if listed then []
    else [⟨"ipvsadm", ["-A", "-t", svc.VIP ++ ":" ++ Itoa svc.LocalPort, "-s", "rr"]⟩]

/-- The gauge writes of a completed `setupService`: status and weight of every backend, then
the status of the VIP. -/
def serviceSamples (svc : Service) : List Sample :=
  (svc.Backends.map (fun b => [⟨Gauge.BackendStatus,
      [svc.VIP ++ ":" ++ Itoa svc.LocalPort, b.IP ++ ":" ++ Itoa b.Port, businessLabel svc],
      Value.ofInt 1⟩, weightSample svc b])).flatten ++
    [⟨Gauge.VipStatus, [svc.VIP, ifaceOf svc, businessLabel svc], Value.ofInt 1⟩]

/-- The virtual-service deletes of `Cleanup` for the keys of `createdRules`: one for every key
with at least two parts between colons, addressed to the first two parts. -/
def ruleDeletes (rules : List String) : List Cmd :=
  (rules.map (fun rule =>
    match Split rule ':' with
    | p0 :: p1 :: _ => [(⟨"ipvsadm", ["-D", "-t", p0 ++ ":" ++ p1]⟩ : Cmd)]
    | _ => [])).flatten

/-- The address unbinds of `Cleanup` for the keys of `createdVIPs`: one for every key with
exactly two parts around a slash. -/
def vipDeletes (vips : List String) : List Cmd :=
  (vips.map (fun vipKey =>
    match Split vipKey '/' with
    | [p0, p1] => [(⟨"ip", ["addr", "del", p0 ++ "/32", "dev", p1]⟩ : Cmd)]
    | _ => [])).flatten

/-- The interface deletes of `Cleanup`: one for every name of `createdIfaces`. -/
def ifaceDeletes (ifaces : List String) : List Cmd :=
  ifaces.map (fun iface => ⟨"ip", ["link", "del", iface]⟩)

/-- The NAT-rule delete of `removeSNATRules` for a service, towards a local address. -/
def natDelete (localIP : String) (svc : Service) : Cmd :=
  ⟨"iptables", Fields ("-t nat -D POSTROUTING -m ipvs --vaddr " ++ svc.VIP ++ " --vport " ++
    Itoa svc.LocalPort ++ " -j SNAT --to-source " ++ localIP)⟩

/-- The tunable restores of `restoreSysctl`: one write for every captured value. -/
def sysctlRestores (captured : List (String × String)) : List Cmd :=
  captured.map (fun p => ⟨"sysctl", ["-w", p.1 ++ "=" ++ p.2]⟩)

/-- A virtual-service delete: `ipvsadm -D -t ...`. -/
def isServiceDelete (c : Cmd) : Bool := c.name = "ipvsadm" && c.args.take 2 = ["-D", "-t"]

/-- An address unbind: `ip addr del ...`. -/
def isUnbind (c : Cmd) : Bool := c.name = "ip" && c.args.take 2 = ["addr", "del"]

/-- An interface delete: `ip link del ...`. -/
def isIfaceDelete (c : Cmd) : Bool := c.name = "ip" && c.args.take 2 = ["link", "del"]

/-- A NAT-rule delete: `iptables -t nat -D ...`. -/
def isNatDelete (c : Cmd) : Bool := c.name = "iptables" && c.args.take 3 = ["-t", "nat", "-D"]

/-- A tunable write: `sysctl -w ...`. -/
def isSysctlWrite (c : Cmd) : Bool := c.name = "sysctl" && c.args.head? = some "-w"

/-- A run that starts on a fresh manager, in a state of the host, with no command issued. -/
def freshRun {σ : Type} (w : σ) (conf : Config) : Sys σ :=
  { world := w, calls := [], m := NewIPVSManager conf }

/-- A host on which every command runs without error and every tunable query prints `0`
followed by a line feed; the only address is 192.168.0.9 and every probe connects. -/
def baselineHost : Host Unit :=
  { command := fun w c =>
      ((true, if c.name = "sysctl" ∧ c.args.head? = some "-n" then "0\n" else ""), w),
    interfaceAddrs := fun w => (some [⟨true, false, true, "192.168.0.9"⟩], w),
    dialTimeout := fun w _ => (true, w) }

/-- A host on which every `ip` command fails and every other command runs without error;
the only address is 192.168.0.9. -/
def noIpHost : Host Unit :=
  { command := fun w c => ((decide (c.name ≠ "ip"), ""), w),
    interfaceAddrs := fun w => (some [⟨true, false, true, "192.168.0.9"⟩], w),
    dialTimeout := fun w _ => (true, w) }

/-- An interface create: `ip link add ...`. -/
def isIfaceCreate (c : Cmd) : Bool := c.name = "ip" && c.args.take 2 = ["link", "add"]

/-- A virtual-service create: `ipvsadm -A ...`. -/
def isServiceCreate (c : Cmd) : Bool := c.name = "ipvsadm" && c.args.head? = some "-A"

/-- The virtual-service delete addressed to the `VIP:LocalPort` of a service. -/
def serviceDelete (svc : Service) : Cmd :=
  ⟨"ipvsadm", ["-D", "-t", svc.VIP ++ ":" ++ Itoa svc.LocalPort]⟩

/-- The unbind of `VIP/32` from the interface of a service. -/
def vipUnbind (svc : Service) : Cmd :=
  ⟨"ip", ["addr", "del", svc.VIP ++ "/32", "dev", ifaceOf svc]⟩

/-- A service whose virtual address is written with a mask, `10.0.0.1/32`. -/
def cidrService : Service :=
  { VIP := "10.0.0.1/32", LocalPort := 80, Backends := [], Protocol := "", Interface := "",
    Business := "" }

/-! ## The statement of the VIP presence pass -/

/-- The listing shows an address itself bound with the /32 mask: one of the white-space
separated words of the listing is the address followed by `/32`. -/
def showsBound (output vip : String) : Bool := (Fields output).contains (vip ++ "/32")

/-- The status gauge write of `updateVIPStatus` for a service, given the address listing: 1
when the text of the listing contains `VIP/32` somewhere, else 0, under the labels VIP,
interface (`ipvs0` unless configured) and business (`default` unless configured). -/
def vipStatusSample (output : String) (svc : Service) : Sample :=
  ⟨Gauge.VipStatus, [svc.VIP, ifaceOf svc, businessLabel svc],
    Value.ofInt (if Contains output (svc.VIP ++ "/32") then 1 else 0)⟩

/-- A host whose address listing shows 10.0.0.1/32 bound on ipvs0, and nothing else; every
command runs without error. -/
def listingHost : Host Unit :=
  { command := fun w c =>
      ((true, if c.name = "ip" ∧ c.args = ["addr", "show"] then
        "4: ipvs0: <BROADCAST,NOARP,UP,LOWER_UP> mtu 1500\n    inet 10.0.0.1/32 scope global ipvs0\n"
        else ""), w),
    interfaceAddrs := fun w => (some [⟨true, false, true, "192.168.0.9"⟩], w),
    dialTimeout := fun w _ => (true, w) }

/-- A configured service whose virtual address, 0.0.0.1, is the tail of 10.0.0.1. -/
def tailService : Service :=
  { VIP := "0.0.0.1", LocalPort := 80, Backends := [], Protocol := "", Interface := "",
    Business := "" }

/-- A service with one real server of configured weight 2^53 + 1. -/
def heavyService : Service :=
  { VIP := "10.0.0.1", LocalPort := 80, Backends := [⟨"10.0.0.2", 8080, 9007199254740993⟩],
    Protocol := "", Interface := "", Business := "" }

/-- The state in which `setupService` lists the virtual service, when it gets that far: the
one the interface step and then the VIP step leave. -/
def atListing {σ : Type} (H : Host σ) (svc : Service) (s : Sys σ) : Sys σ :=
  (addVIPToInterface H svc (createDummyInterface H (ifaceOf svc) s).2).2

/-- The addresses a list of commands has bound to an interface, as `ip addr show` prints
them, one line each. -/
def boundAddrs (iface : String) : List Cmd → String
  | [] => ""
  | c :: rest =>
    (if c.name = "ip" ∧ c.args.take 2 = ["addr", "add"] ∧ c.args.drop 3 = ["dev", iface] then
      "    inet " ++ c.args.getD 2 "" ++ " scope global " ++ iface ++ "\n"
    else "") ++ boundAddrs iface rest

/-- A host that keeps state, the list of the commands run on it so far: `ip link show` finds
an interface once its create has run, `ip addr show dev` prints the addresses bound to the
interface so far, `ipvsadm -L -n -t` lists a virtual service once its create has run, and
every other command runs without error and prints nothing. -/
def memHost : Host (List Cmd) :=
  { command := fun w c =>
      (if c.name = "ip" ∧ c.args.take 2 = ["link", "show"] then
        (decide (⟨"ip", ["link", "add"] ++ c.args.drop 2 ++ ["type", "dummy"]⟩ ∈ w), "")
      else if c.name = "ip" ∧ c.args.take 3 = ["addr", "show", "dev"] then
        (true, boundAddrs (c.args.getD 3 "") w)
      else if c.name = "ipvsadm" ∧ c.args.take 3 = ["-L", "-n", "-t"] then
        (decide (⟨"ipvsadm", ["-A", "-t"] ++ c.args.drop 3 ++ ["-s", "rr"]⟩ ∈ w), "")
      else (true, ""), w ++ [c]),
    interfaceAddrs := fun w => (some [⟨true, false, true, "192.168.0.9"⟩], w),
    dialTimeout := fun w _ => (true, w) }

/-! # Theorems -/

/-! ## Business labels -/

/-- The loop of `getBusinessForService` is a search for the first match. -/
theorem businessOf_eq_find (l : List Service) (s : String) :
    businessOf l s =
      match l.find? (fun svc => svc.VIP ++ ":" ++ Itoa svc.LocalPort = s) with
      | some svc => if svc.Business = "" then "default" else svc.Business
      | none => "unknown" := by
  induction l with
  | nil => rfl
  | cons svc rest ih =>
    by_cases h : svc.VIP ++ ":" ++ Itoa svc.LocalPort = s
    · by_cases hb : svc.Business = "" <;> simp [businessOf, h, hb]
    · simp [businessOf, h, ih]

/-- No result of the lookup is empty. -/
theorem businessOf_ne_empty (l : List Service) (s : String) : businessOf l s ≠ "" := by
  induction l with
  | nil => simp [businessOf]
  | cons svc rest ih =>
    by_cases h : svc.VIP ++ ":" ++ Itoa svc.LocalPort = s
    · by_cases hb : svc.Business = "" <;> simp [businessOf, h, hb]
    · simp [businessOf, h, ih]

/-- The lookup does not read the protocol or the interface. -/
theorem businessOf_map (l : List Service) (p i : Service → String) (s : String) :
    businessOf (l.map (fun svc => { svc with Protocol := p svc, Interface := i svc })) s =
      businessOf l s := by
  induction l with
  | nil => rfl
  | cons svc rest ih => simp [businessOf, ih]

/-- C3: `getBusinessForService m s` is the business label of the first configured service whose
`VIP:LocalPort` rendering is `s`, `default` when that label is empty and `unknown` when no
configured service matches; it is never the empty string; and it is the same whatever the
protocol and interface fields of the configured services are. -/
theorem getBusinessForService_spec (m : IPVSManager) (s : String) :
    (getBusinessForService m s =
      match m.config.Services.find? (fun svc => svc.VIP ++ ":" ++ Itoa svc.LocalPort = s) with
      | some svc => if svc.Business = "" then "default" else svc.Business
      | none => "unknown") ∧
    getBusinessForService m s ≠ "" ∧
    ∀ p i : Service → String,
      getBusinessForService
        { m with config := { m.config with Services := (m.config.Services.map
          (fun svc => { svc with Protocol := p svc, Interface := i svc })) } } s
        = getBusinessForService m s :=
  ⟨businessOf_eq_find _ _, businessOf_ne_empty _ _, fun p i => businessOf_map _ p i s⟩


/-! ## The statistics pass -/

@[simp] theorem setGauge_world {σ : Type} (g : Gauge) (l : List String) (v : Value) (s : Sys σ) :
    (setGauge g l v s).world = s.world := rfl
@[simp] theorem setGauge_calls {σ : Type} (g : Gauge) (l : List String) (v : Value) (s : Sys σ) :
    (setGauge g l v s).calls = s.calls := rfl
@[simp] theorem setGauge_config {σ : Type} (g : Gauge) (l : List String) (v : Value) (s : Sys σ) :
    (setGauge g l v s).m.config = s.m.config := rfl
@[simp] theorem setGauge_metrics {σ : Type} (g : Gauge) (l : List String) (v : Value) (s : Sys σ) :
    (setGauge g l v s).m.metrics = s.m.metrics ++ [⟨g, l, v⟩] := rfl

theorem getBusinessForService_congr {m m' : IPVSManager} (h : m'.config = m.config) (x : String) :
    getBusinessForService m' x = getBusinessForService m x := by
  simp [getBusinessForService, h]

theorem statsSamples_congr {m m' : IPVSManager} (h : m'.config = m.config) (line : String) :
    statsSamples m' line = statsSamples m line := by
  simp [statsSamples, getBusinessForService_congr h]

theorem statsLine_spec {σ : Type} (line : String) (s : Sys σ) :
    (statsLine line s).m.metrics = s.m.metrics ++ statsSamples s.m line ∧
    (statsLine line s).m.config = s.m.config ∧
    (statsLine line s).world = s.world ∧ (statsLine line s).calls = s.calls := by
  unfold statsLine statsSamples isStatsLine fieldAt
  rcases h : Fields line with _ | ⟨a, _ | ⟨b, _ | ⟨c, _ | ⟨d, _ | ⟨e, _ | ⟨f, r⟩⟩⟩⟩⟩⟩ <;>
    simp
  by_cases hc : Contains a ":" = true <;> simp [hc]

theorem statsFold_spec {σ : Type} (lines : List String) (s : Sys σ) :
    (lines.foldl (fun acc line => statsLine line acc) s).m.metrics =
      s.m.metrics ++ (lines.map (statsSamples s.m)).flatten ∧
    (lines.foldl (fun acc line => statsLine line acc) s).m.config = s.m.config ∧
    (lines.foldl (fun acc line => statsLine line acc) s).world = s.world ∧
    (lines.foldl (fun acc line => statsLine line acc) s).calls = s.calls := by
  induction lines generalizing s with
  | nil => simp
  | cons l rest ih =>
    obtain ⟨h1, h2, h3, h4⟩ := statsLine_spec l s
    obtain ⟨i1, i2, i3, i4⟩ := ih (statsLine l s)
    have hc : statsSamples (statsLine l s).m = statsSamples s.m :=
      funext (statsSamples_congr h2)
    simp only [List.foldl_cons, i1, i2, i3, i4, h1, h2, h3, h4, hc, List.map_cons,
      List.flatten_cons, List.append_assoc, and_self]

theorem published_append (log new : List Sample) (g : Gauge) (k : List String) :
    published (log ++ new) g k = ((published new g k).orElse fun _ => published log g k) := by
  unfold published
  rw [List.reverse_append, List.find?_append]
  cases h : List.find? (fun x => decide (x.gauge = g ∧ x.labels = k)) new.reverse <;> simp

theorem published_statsSamples (m : IPVSManager) (l svc : String) (g : Gauge)
    (hg : g ∈ statsGauges) :
    published (statsSamples m l) g [svc, getBusinessForService m svc] =
      if isStatsLine l = true ∧ fieldAt l 0 = svc then
        some (Value.parsed (fieldAt l (statsField g)))
      else none := by
  by_cases h1 : isStatsLine l = true
  · by_cases h2 : fieldAt l 0 = svc
    · subst h2
      simp only [statsGauges, List.mem_cons, List.mem_singleton, List.not_mem_nil, or_false] at hg
      rcases hg with rfl | rfl | rfl | rfl | rfl <;>
        simp [published, statsSamples, h1, statsField, List.find?]
    · simp [published, statsSamples, h1, h2, List.find?]
  · simp [published, statsSamples, h1]

theorem lastStatsLine_append (lines : List String) (l svc : String) :
    lastStatsLine (lines ++ [l]) svc =
      if isStatsLine l = true ∧ fieldAt l 0 = svc then some l else lastStatsLine lines svc := by
  unfold lastStatsLine
  rw [List.reverse_append]
  by_cases h1 : isStatsLine l = true <;> by_cases h2 : fieldAt l 0 = svc <;>
    simp [List.find?, h1, h2]

theorem published_stats (m : IPVSManager) (base : List Sample) (lines : List String)
    (svc : String) (g : Gauge) (hg : g ∈ statsGauges) :
    published (base ++ (lines.map (statsSamples m)).flatten) g
        [svc, getBusinessForService m svc] =
      match lastStatsLine lines svc with
      | some l => some (Value.parsed (fieldAt l (statsField g)))
      | none => published base g [svc, getBusinessForService m svc] := by
  induction lines using List.reverseRecOn with
  | nil => simp [lastStatsLine]
  | append_singleton lines l ih =>
    rw [List.map_append, List.flatten_append, ← List.append_assoc, published_append, ih,
      lastStatsLine_append]
    simp only [List.map_cons, List.map_nil, List.flatten_cons, List.flatten_nil,
      List.append_nil, published_statsSamples m l svc g hg]
    by_cases h : isStatsLine l = true ∧ fieldAt l 0 = svc
    · simp [h]
    · simp [h]


/-- C2: `parseIPVSStats` appends to the published gauges, line by line, the five gauges of
every line with at least six fields whose first field has a colon (connections from field 2,
packets in and out from fields 3 and 4, bytes in and out from fields 5 and 6, keyed by the
first field and its business label) and nothing for any other line; it issues no command;
and the value it leaves published for a service is that of the last such line for the
service, or the value published before when there is none. -/
theorem parseIPVSStats_spec {σ : Type} (output : String) (s : Sys σ) :
    (parseIPVSStats output s).m.metrics =
      s.m.metrics ++ ((Split output '\n').map (statsSamples s.m)).flatten ∧
    (parseIPVSStats output s).calls = s.calls ∧
    ∀ svc g, g ∈ statsGauges →
      published (parseIPVSStats output s).m.metrics g [svc, getBusinessForService s.m svc] =
        match lastStatsLine (Split output '\n') svc with
        | some l => some (Value.parsed (fieldAt l (statsField g)))
        | none => published s.m.metrics g [svc, getBusinessForService s.m svc] := by
  obtain ⟨h1, _, _, h4⟩ := statsFold_spec (Split output '\n') s
  refine ⟨h1, h4, fun svc g hg => ?_⟩
  unfold parseIPVSStats
  rw [h1]
  exact published_stats s.m s.m.metrics _ svc g hg

/-- The statistics line of the specification, on a fresh manager that has 10.0.0.1:80
configured without a business label: the five gauges of the service read 42, 100, 200, 5000
and 9000. -/
theorem parseIPVSStats_spec_witness :
    published (parseIPVSStats "10.0.0.1:80 42 100 200 5000 9000"
        (freshSys [exampleService])).m.metrics Gauge.ConnectionsTotal ["10.0.0.1:80", "default"]
      = some (Value.parsed "42") ∧
    published (parseIPVSStats "10.0.0.1:80 42 100 200 5000 9000"
        (freshSys [exampleService])).m.metrics Gauge.PacketsInTotal ["10.0.0.1:80", "default"]
      = some (Value.parsed "100") ∧
    published (parseIPVSStats "10.0.0.1:80 42 100 200 5000 9000"
        (freshSys [exampleService])).m.metrics Gauge.PacketsOutTotal ["10.0.0.1:80", "default"]
      = some (Value.parsed "200") ∧
    published (parseIPVSStats "10.0.0.1:80 42 100 200 5000 9000"
        (freshSys [exampleService])).m.metrics Gauge.BytesInTotal ["10.0.0.1:80", "default"]
      = some (Value.parsed "5000") ∧
    published (parseIPVSStats "10.0.0.1:80 42 100 200 5000 9000"
        (freshSys [exampleService])).m.metrics Gauge.BytesOutTotal ["10.0.0.1:80", "default"]
      = some (Value.parsed "9000") := by
  have h := (parseIPVSStats_spec "10.0.0.1:80 42 100 200 5000 9000"
    (freshSys [exampleService])).2.2 "10.0.0.1:80"
  have hb : getBusinessForService (freshSys [exampleService]).m "10.0.0.1:80" = "default" := by
    decide
  rw [hb] at h
  refine ⟨?_, ?_, ?_, ?_, ?_⟩
  · rw [h Gauge.ConnectionsTotal (by decide)]; decide
  · rw [h Gauge.PacketsInTotal (by decide)]; decide
  · rw [h Gauge.PacketsOutTotal (by decide)]; decide
  · rw [h Gauge.BytesInTotal (by decide)]; decide
  · rw [h Gauge.BytesOutTotal (by decide)]; decide


/-! ## The connection pass -/

theorem fieldsFrom_head (cs cur : List Char) (hcur : cur ≠ []) :
    ∃ more rest, fieldsFrom cs cur = String.mk (cur.reverse ++ more) :: rest := by
  induction cs generalizing cur with
  | nil => exact ⟨[], [], by simp [fieldsFrom, hcur]⟩
  | cons c cs ih =>
    by_cases hs : isSpace c = true
    · exact ⟨[], fieldsFrom cs [], by simp [fieldsFrom, hs, hcur]⟩
    · obtain ⟨more, rest, h⟩ := ih (c :: cur) (by simp)
      exact ⟨c :: more, rest, by simp [fieldsFrom, hs, h]⟩

theorem Fields_of_arrow (line : String) (h : HasPrefix line "  ->" = true) :
    ∃ more rest, Fields line = String.mk ('-' :: '>' :: more) :: rest := by
  obtain ⟨cs⟩ := line
  simp only [HasPrefix] at h
  match cs, h with
  | [], h => simp at h
  | [_], h => simp at h
  | [_, _], h => simp at h
  | [_, _, _], h => simp at h
  | a :: b :: c :: d :: cs, h =>
    simp at h
    obtain ⟨rfl, rfl, rfl, rfl⟩ := h
    obtain ⟨more, rest, hh⟩ := fieldsFrom_head cs ['>', '-'] (by simp)
    refine ⟨more, rest, ?_⟩
    have e1 : isSpace ' ' = true := by decide
    have e2 : isSpace '-' = false := by decide
    have e3 : isSpace '>' = false := by decide
    simp [Fields, fieldsFrom, e1, e2, e3, hh]

end ChaosLB
namespace ChaosLB

theorem arrow_first_field (line : String) (h : HasPrefix line "  ->" = true) :
    ∃ f rest, Fields line = f :: rest ∧ f ≠ "Prot" ∧ f ≠ "RemoteAddress:Port" ∧ f ≠ "IP" ∧
      f ≠ "TCP" ∧ f ≠ "UDP" := by
  obtain ⟨more, rest, hf⟩ := Fields_of_arrow line h
  refine ⟨_, rest, hf, ?_, ?_, ?_, ?_, ?_⟩ <;>
  · intro h'
    have := congrArg (fun x : String => x.data.head?) h'
    simp at this

/-- No arrow row is ever republished: on a line that begins with the arrow marker, with a
service current, the scan panics, on a short row at a field access and on a full row at the
first gauge write, which passes four label values to the vector `BackendConnections` of
three label names. -/
theorem connLine_row_panics {σ : Type} (H : Host σ) (line cur : String) (s : Sys σ)
    (hp : HasPrefix line "  ->" = true) (hc : cur ≠ "") : connLine H line cur s = none := by
  obtain ⟨f, rest, hf, k1, k2, k3, k4, k5⟩ := arrow_first_field line hp
  unfold connLine
  simp only [hf]
  rcases rest with _ | ⟨b, _ | ⟨c, _ | ⟨d, _ | ⟨e, _ | ⟨g, r⟩⟩⟩⟩⟩ <;>
    simp [k1, k2, k3, k4, k5, hp, hc, withLabelValuesSet, labelNames]

/-- C1: `parseIPVSConnections` does not republish the listing of the specification. On the
header `TCP 10.0.0.1:80 rr` followed by the row `  -> 10.0.0.2:8080 Masq 5 3 1` the scan
panics at the write of the active connections, whatever the host and the state, so that no
weight, active or inactive count of the backend is published; and so it does on every arrow
row that follows a service line. -/
theorem parseIPVSConnections_row_panics {σ : Type} (H : Host σ) (s : Sys σ) :
    parseIPVSConnections H "TCP 10.0.0.1:80 rr\n  -> 10.0.0.2:8080 Masq 5 3 1" s = none ∧
    withLabelValuesSet Gauge.BackendConnections
      ["10.0.0.1:80", "10.0.0.2:8080", "active", getBusinessForService s.m "10.0.0.1:80"]
      (Value.parsed "3") s = none ∧
    ∀ line cur : String, HasPrefix line "  ->" = true → cur ≠ "" →
      connLine H line cur s = none := by
  refine ⟨?_, rfl, fun line cur hp hc => connLine_row_panics H line cur s hp hc⟩
  have h : Split "TCP 10.0.0.1:80 rr\n  -> 10.0.0.2:8080 Masq 5 3 1" '\n' =
      ["TCP 10.0.0.1:80 rr", "  -> 10.0.0.2:8080 Masq 5 3 1"] := by decide
  have hf : Fields "TCP 10.0.0.1:80 rr" = ["TCP", "10.0.0.1:80", "rr"] := by decide
  have h1 : connLine H "TCP 10.0.0.1:80 rr" "" s = some ("10.0.0.1:80", s) := by
    simp [connLine, hf]
  have h2 := connLine_row_panics H "  -> 10.0.0.2:8080 Masq 5 3 1" "10.0.0.1:80" s
    (by decide) (by decide)
  simp [parseIPVSConnections, h, connLines, h1, h2]

/-- C9: `parseIPVSConnections` does not survive a truncated line. On the one-line text `TCP`
the scan reads `fields[1]` of a one-field line, and on a service line followed by the row
`  -> 10.0.0.2:8080` it reads `fields[3]` of a two-field line: both are index-out-of-range
panics, whatever the host and the state. -/
theorem parseIPVSConnections_panics {σ : Type} (H : Host σ) (s : Sys σ) :
    parseIPVSConnections H "TCP" s = none ∧
    parseIPVSConnections H "TCP 10.0.0.1:80 rr\n  -> 10.0.0.2:8080" s = none ∧
    (Fields "TCP")[1]? = none ∧ (Fields "  -> 10.0.0.2:8080")[3]? = none := by
  refine ⟨?_, ?_, by decide, by decide⟩
  · have h : Split "TCP" '\n' = ["TCP"] := by decide
    have hf : Fields "TCP" = ["TCP"] := by decide
    simp [parseIPVSConnections, h, connLines, connLine, hf]
  · have h : Split "TCP 10.0.0.1:80 rr\n  -> 10.0.0.2:8080" '\n' =
        ["TCP 10.0.0.1:80 rr", "  -> 10.0.0.2:8080"] := by decide
    have hf : Fields "TCP 10.0.0.1:80 rr" = ["TCP", "10.0.0.1:80", "rr"] := by decide
    have hg : Fields "  -> 10.0.0.2:8080" = ["->", "10.0.0.2:8080"] := by decide
    have hp : HasPrefix "  -> 10.0.0.2:8080" "  ->" = true := by decide
    simp [parseIPVSConnections, h, connLines, connLine, hf, hg, hp]

/-- Every gauge write of the reconciler and of the statistics pass is accepted: it passes
one value per label name of its vector. -/
theorem labels_accepted {σ : Type} (a b c : String) (v : Value) (s : Sys σ) :
    withLabelValuesSet Gauge.SysctlStatus [a] v s = some (setGauge Gauge.SysctlStatus [a] v s) ∧
    withLabelValuesSet Gauge.SnatRulesCount [a] v s =
      some (setGauge Gauge.SnatRulesCount [a] v s) ∧
    withLabelValuesSet Gauge.BackendStatus [a, b, c] v s =
      some (setGauge Gauge.BackendStatus [a, b, c] v s) ∧
    withLabelValuesSet Gauge.BackendWeight [a, b, c] v s =
      some (setGauge Gauge.BackendWeight [a, b, c] v s) ∧
    withLabelValuesSet Gauge.VipStatus [a, b, c] v s =
      some (setGauge Gauge.VipStatus [a, b, c] v s) ∧
    withLabelValuesSet Gauge.ConnectionsTotal [a, b] v s =
      some (setGauge Gauge.ConnectionsTotal [a, b] v s) ∧
    withLabelValuesSet Gauge.PacketsInTotal [a, b] v s =
      some (setGauge Gauge.PacketsInTotal [a, b] v s) ∧
    withLabelValuesSet Gauge.PacketsOutTotal [a, b] v s =
      some (setGauge Gauge.PacketsOutTotal [a, b] v s) ∧
    withLabelValuesSet Gauge.BytesInTotal [a, b] v s =
      some (setGauge Gauge.BytesInTotal [a, b] v s) ∧
    withLabelValuesSet Gauge.BytesOutTotal [a, b] v s =
      some (setGauge Gauge.BytesOutTotal [a, b] v s) :=
  ⟨rfl, rfl, rfl, rfl, rfl, rfl, rfl, rfl, rfl, rfl⟩

/-! ## The reconciler -/

@[simp] theorem exec_calls {σ : Type} (H : Host σ) (c : Cmd) (s : Sys σ) :
    (exec H c s).2.calls = s.calls ++ [c] := rfl
@[simp] theorem exec_m {σ : Type} (H : Host σ) (c : Cmd) (s : Sys σ) :
    (exec H c s).2.m = s.m := rfl
@[simp] theorem exec_world {σ : Type} (H : Host σ) (c : Cmd) (s : Sys σ) :
    (exec H c s).2.world = (H.command s.world c).2 := rfl
@[simp] theorem exec_result {σ : Type} (H : Host σ) (c : Cmd) (s : Sys σ) :
    (exec H c s).1 = (H.command s.world c).1 := rfl

theorem issued_append {σ : Type} (s t : Sys σ) (new : List Cmd) (h : t.calls = s.calls ++ new) :
    issued s t = new := by
  simp [issued, h]

theorem written_append {σ : Type} (s t : Sys σ) (new : List Sample)
    (h : t.m.metrics = s.m.metrics ++ new) : written s t = new := by
  simp [written, h]

/-- `createDummyInterface`: the commands it issues and what it records, by the answers of the
host. It touches nothing but `createdIfaces`. -/
theorem createDummyInterface_spec {σ : Type} (H : Host σ) (iface : String) (s : Sys σ) :
    ∃ a u : Bool,
      (createDummyInterface H iface s).2.calls = s.calls ++
        ifaceCalls iface (H.command s.world ⟨"ip", ["link", "show", iface]⟩).1.1 a ∧
      (createDummyInterface H iface s).2.m = { s.m with createdIfaces := s.m.createdIfaces ++
        if (H.command s.world ⟨"ip", ["link", "show", iface]⟩).1.1 then []
        else if a && u then [iface] else [] } ∧
      ((createDummyInterface H iface s).1 = none ↔
        ((H.command s.world ⟨"ip", ["link", "show", iface]⟩).1.1 = true ∨ (a && u) = true)) := by
  unfold createDummyInterface ifaceCalls
  simp only [exec_result, exec_calls, exec_m, exec_world]
  by_cases hq : (H.command s.world ⟨"ip", ["link", "show", iface]⟩).1.1 = true
  · exact ⟨true, true, by simp [hq]⟩
  · by_cases ha : (H.command (H.command s.world ⟨"ip", ["link", "show", iface]⟩).2
        ⟨"ip", ["link", "add", iface, "type", "dummy"]⟩).1.1 = true
    · by_cases hu : (H.command (H.command (H.command s.world
          ⟨"ip", ["link", "show", iface]⟩).2
          ⟨"ip", ["link", "add", iface, "type", "dummy"]⟩).2
          ⟨"ip", ["link", "set", "dev", iface, "up"]⟩).1.1 = true
      · exact ⟨true, true, by simp [hq, ha, hu]⟩
      · exact ⟨true, false, by simp [hq, ha, hu]⟩
    · exact ⟨false, false, by simp [hq, ha]⟩

/-- `addVIPToInterface`: the commands it issues, and the key it records unless the bind
fails. -/
theorem addVIPToInterface_spec {σ : Type} (H : Host σ) (svc : Service) (s : Sys σ) :
    ∃ c : Bool,
      (addVIPToInterface H svc s).2.calls = s.calls ++ vipCalls svc c ∧
      (addVIPToInterface H svc s).2.m = { s.m with createdVIPs := s.m.createdVIPs ++
        if (addVIPToInterface H svc s).1 = none then [vipKey svc] else [] } := by
  unfold addVIPToInterface vipCalls
  simp only [exec_result, exec_calls, exec_m, exec_world]
  by_cases hc : Contains (H.command s.world ⟨"ip", ["addr", "show", "dev", ifaceOf svc]⟩).1.2
      (svc.VIP ++ "/32") = true
  · exact ⟨true, by simp [hc, vipKey]⟩
  · refine ⟨false, ?_⟩
    by_cases ha : (H.command (H.command s.world
        ⟨"ip", ["addr", "show", "dev", ifaceOf svc]⟩).2
        ⟨"ip", ["addr", "add", svc.VIP ++ "/32", "dev", ifaceOf svc]⟩).1.1 = true
    · simp [hc, ha, vipKey]
    · simp [hc, ha]

/-- `addVirtualService`: the commands it issues, by the answer to the listing, and the key
it records unless the create fails. -/
theorem addVirtualService_spec {σ : Type} (H : Host σ) (svc : Service) (s : Sys σ) :
    (addVirtualService H svc s).2.calls = s.calls ++ serviceCalls svc (H.command s.world
        ⟨"ipvsadm", ["-L", "-n", "-t", svc.VIP ++ ":" ++ Itoa svc.LocalPort]⟩).1.1 ∧
    (addVirtualService H svc s).2.m = { s.m with createdRules := s.m.createdRules ++
      if (addVirtualService H svc s).1 = none then [serviceKey svc] else [] } := by
  unfold addVirtualService serviceCalls
  simp only [exec_result, exec_calls, exec_m, exec_world]
  by_cases hl : (H.command s.world
      ⟨"ipvsadm", ["-L", "-n", "-t", svc.VIP ++ ":" ++ Itoa svc.LocalPort]⟩).1.1 = true
  · simp [hl, serviceKey]
  · by_cases ha : (H.command (H.command s.world
        ⟨"ipvsadm", ["-L", "-n", "-t", svc.VIP ++ ":" ++ Itoa svc.LocalPort]⟩).2
        ⟨"ipvsadm", ["-A", "-t", svc.VIP ++ ":" ++ Itoa svc.LocalPort, "-s", "rr"]⟩).1.1 = true
    · simp [hl, ha, serviceKey]
    · simp [hl, ha]

/-- The real-server loop: one add call per backend, with the effective weight, and two gauge
writes per backend; the ledger is not touched. -/
theorem addRealServers_spec {σ : Type} (H : Host σ) (svc : Service) (l : List Backend)
    (s : Sys σ) :
    (addRealServers H svc l s).calls = s.calls ++ l.map (serverAdd svc) ∧
    (addRealServers H svc l s).m = { s.m with metrics := s.m.metrics ++
      (l.map (fun b => [⟨Gauge.BackendStatus,
          [svc.VIP ++ ":" ++ Itoa svc.LocalPort, b.IP ++ ":" ++ Itoa b.Port, businessLabel svc],
          Value.ofInt 1⟩, weightSample svc b])).flatten } := by
  induction l generalizing s with
  | nil => simp [addRealServers]
  | cons b rest ih =>
    simp only [addRealServers]
    rw [(ih _).1, (ih _).2]
    simp [serverAdd, weightSample, effectiveWeight, setGauge]

theorem calls_chain {σ : Type} {s t u : Sys σ} {a b : List Cmd} (h1 : t.calls = s.calls ++ a)
    (h2 : u.calls = t.calls ++ b) : u.calls = s.calls ++ (a ++ b) := by
  rw [h2, h1, List.append_assoc]

/-- `setupService`, whole: when it returns nil it has issued the commands of the four steps
in order and recorded one VIP key and one service key; when it returns an error it has
stopped inside the first three steps, has recorded no service key and published nothing. In
both cases only the three ledger lists named and the gauges are touched. The listing of the
virtual service is answered in the state of the host that the VIP step leaves. -/
theorem setupService_spec_at {σ : Type} (H : Host σ) (svc : Service) (s : Sys σ) :
    ∃ (a u c : Bool),
      (setupService H svc s).2.calls = s.calls ++ issued s (setupService H svc s).2 ∧
      if (setupService H svc s).1 = none then
        issued s (setupService H svc s).2 = ifaceCalls (ifaceOf svc)
            (H.command s.world ⟨"ip", ["link", "show", ifaceOf svc]⟩).1.1 a ++
          (vipCalls svc c ++ (serviceCalls svc (H.command
            (addVIPToInterface H svc (createDummyInterface H (ifaceOf svc) s).2).2.world
            ⟨"ipvsadm", ["-L", "-n", "-t", svc.VIP ++ ":" ++ Itoa svc.LocalPort]⟩).1.1 ++
            svc.Backends.map (serverAdd svc))) ∧
        (setupService H svc s).2.m = { s.m with
          metrics := s.m.metrics ++ serviceSamples svc,
          createdRules := s.m.createdRules ++ [serviceKey svc],
          createdVIPs := s.m.createdVIPs ++ [vipKey svc],
          createdIfaces := s.m.createdIfaces ++
            if (H.command s.world ⟨"ip", ["link", "show", ifaceOf svc]⟩).1.1 then []
            else if a && u then [ifaceOf svc] else [] }
      else
        issued s (setupService H svc s).2 <+: ifaceCalls (ifaceOf svc)
            (H.command s.world ⟨"ip", ["link", "show", ifaceOf svc]⟩).1.1 a ++
          (vipCalls svc c ++ serviceCalls svc (H.command
            (addVIPToInterface H svc (createDummyInterface H (ifaceOf svc) s).2).2.world
            ⟨"ipvsadm", ["-L", "-n", "-t", svc.VIP ++ ":" ++ Itoa svc.LocalPort]⟩).1.1) ∧
        (setupService H svc s).2.m = { s.m with
          createdVIPs := (setupService H svc s).2.m.createdVIPs,
          createdIfaces := s.m.createdIfaces ++
            if (H.command s.world ⟨"ip", ["link", "show", ifaceOf svc]⟩).1.1 then []
            else if a && u then [ifaceOf svc] else [] } := by
  obtain ⟨a, u, hd1, hd2, -⟩ := createDummyInterface_spec H (ifaceOf svc) s
  obtain ⟨c, hv1, hv2⟩ := addVIPToInterface_spec H svc (createDummyInterface H (ifaceOf svc) s).2
  obtain ⟨ha1, ha2⟩ := addVirtualService_spec H svc
    (addVIPToInterface H svc (createDummyInterface H (ifaceOf svc) s).2).2
  obtain ⟨hs1, hs2⟩ := addRealServers_spec H svc svc.Backends
    (addVirtualService H svc
      (addVIPToInterface H svc (createDummyInterface H (ifaceOf svc) s).2).2).2
  refine ⟨a, u, c, ?_⟩
  rcases hd : (createDummyInterface H (ifaceOf svc) s).1 with _ | e
  · rcases hv : (addVIPToInterface H svc (createDummyInterface H (ifaceOf svc) s).2).1 with _ | e
    · rcases ha : (addVirtualService H svc
        (addVIPToInterface H svc (createDummyInterface H (ifaceOf svc) s).2).2).1 with _ | e
      · have e : setupService H svc s = (none, setGauge Gauge.VipStatus
            [svc.VIP, ifaceOf svc, businessLabel svc] (Value.ofInt 1)
            (addRealServers H svc svc.Backends (addVirtualService H svc
              (addVIPToInterface H svc (createDummyInterface H (ifaceOf svc) s).2).2).2)) := by
          simp only [setupService, hd, hv, ha]
        rw [e]
        have hc := calls_chain (calls_chain (calls_chain hd1 hv1) ha1) hs1
        simp only [List.append_assoc] at hc
        simp only [setGauge_calls]
        rw [issued_append _ (setGauge _ _ _ _) _ hc]
        refine ⟨hc, ?_⟩
        simp [setGauge, hs2, ha2, hv2, hd2, ha, hv, serviceSamples]
      · have e' : setupService H svc s = (some e, (addVirtualService H svc
            (addVIPToInterface H svc (createDummyInterface H (ifaceOf svc) s).2).2).2) := by
          simp only [setupService, hd, hv, ha]
        rw [e']
        have hc := calls_chain (calls_chain hd1 hv1) ha1
        simp only [List.append_assoc] at hc
        rw [issued_append _ _ _ hc]
        refine ⟨hc, ?_⟩
        simp [ha2, hv2, hd2, ha, hv]
    · have e' : setupService H svc s = (some e,
          (addVIPToInterface H svc (createDummyInterface H (ifaceOf svc) s).2).2) := by
        simp only [setupService, hd, hv]
      rw [e']
      have hc := calls_chain hd1 hv1
      rw [issued_append _ _ _ hc]
      refine ⟨hc, ?_⟩
      simp [hv2, hd2, hv]
  · have e' : setupService H svc s = (some e, (createDummyInterface H (ifaceOf svc) s).2) := by
      simp only [setupService, hd]
    rw [e']
    rw [issued_append _ _ _ hd1]
    refine ⟨hd1, ?_⟩
    simp [hd2]

/-- `setupService`, whole, with the state of the host at the listing left unnamed. -/
theorem setupService_spec {σ : Type} (H : Host σ) (svc : Service) (s : Sys σ) :
    ∃ (a u c : Bool) (w : σ),
      (setupService H svc s).2.calls = s.calls ++ issued s (setupService H svc s).2 ∧
      if (setupService H svc s).1 = none then
        issued s (setupService H svc s).2 = ifaceCalls (ifaceOf svc)
            (H.command s.world ⟨"ip", ["link", "show", ifaceOf svc]⟩).1.1 a ++
          (vipCalls svc c ++ (serviceCalls svc (H.command w
            ⟨"ipvsadm", ["-L", "-n", "-t", svc.VIP ++ ":" ++ Itoa svc.LocalPort]⟩).1.1 ++
            svc.Backends.map (serverAdd svc))) ∧
        (setupService H svc s).2.m = { s.m with
          metrics := s.m.metrics ++ serviceSamples svc,
          createdRules := s.m.createdRules ++ [serviceKey svc],
          createdVIPs := s.m.createdVIPs ++ [vipKey svc],
          createdIfaces := s.m.createdIfaces ++
            if (H.command s.world ⟨"ip", ["link", "show", ifaceOf svc]⟩).1.1 then []
            else if a && u then [ifaceOf svc] else [] }
      else
        issued s (setupService H svc s).2 <+: ifaceCalls (ifaceOf svc)
            (H.command s.world ⟨"ip", ["link", "show", ifaceOf svc]⟩).1.1 a ++
          (vipCalls svc c ++ serviceCalls svc (H.command w
            ⟨"ipvsadm", ["-L", "-n", "-t", svc.VIP ++ ":" ++ Itoa svc.LocalPort]⟩).1.1) ∧
        (setupService H svc s).2.m = { s.m with
          createdVIPs := (setupService H svc s).2.m.createdVIPs,
          createdIfaces := s.m.createdIfaces ++
            if (H.command s.world ⟨"ip", ["link", "show", ifaceOf svc]⟩).1.1 then []
            else if a && u then [ifaceOf svc] else [] } := by
  obtain ⟨a, u, c, h⟩ := setupService_spec_at H svc s
  exact ⟨a, u, c, _, h⟩


theorem filter_prefix_nil {α : Type} (p : α → Bool) {l big : List α} (h : l <+: big)
    (hb : ∀ x ∈ big, p x = false) : l.filter p = [] := by
  rw [List.filter_eq_nil_iff]
  intro x hx
  simpa using hb x (h.subset hx)

theorem not_serverAdd_steps (svc : Service) (f a c l : Bool) :
    ∀ x ∈ ifaceCalls (ifaceOf svc) f a ++ (vipCalls svc c ++ serviceCalls svc l),
      isServerAdd x = false := by
  have h : (ifaceCalls (ifaceOf svc) f a ++ (vipCalls svc c ++ serviceCalls svc l)).all
      (fun x => !isServerAdd x) = true := by
    cases f <;> cases a <;> cases c <;> cases l <;>
      simp [ifaceCalls, vipCalls, serviceCalls, isServerAdd]
  intro x hx
  simpa using List.all_eq_true.1 h x hx

theorem filter_serverAdd_map (svc : Service) (l : List Backend) :
    (l.map (serverAdd svc)).filter isServerAdd = l.map (serverAdd svc) := by
  rw [List.filter_eq_self]
  intro x hx
  obtain ⟨b, -, rfl⟩ := List.mem_map.1 hx
  simp [serverAdd, isServerAdd]

theorem weights_of_samples (svc : Service) (l : List Backend) (tail : List Sample)
    (ht : tail.filter (fun x => decide (x.gauge = Gauge.BackendWeight)) = []) :
    ((l.map (fun b => [⟨Gauge.BackendStatus,
      [svc.VIP ++ ":" ++ Itoa svc.LocalPort, b.IP ++ ":" ++ Itoa b.Port, businessLabel svc],
      Value.ofInt 1⟩, weightSample svc b])).flatten ++ tail).filter
        (fun x => decide (x.gauge = Gauge.BackendWeight)) = l.map (weightSample svc) := by
  induction l with
  | nil => simpa using ht
  | cons b rest ih =>
    simp only [List.map_cons, List.flatten_cons, List.append_assoc, List.cons_append,
      List.nil_append]
    rw [List.filter_cons_of_neg (by simp), List.filter_cons_of_pos (by simp [weightSample]), ih]

/-- The conversion `float64` on integers around 2^53 and 2^54: exact up to 2^53, then to the
nearest multiple of the spacing, a tie going to the even multiple. -/
theorem roundFloat64_examples :
    roundFloat64 12345 = 12345 ∧
    roundFloat64 (-9007199254740992) = -9007199254740992 ∧
    roundFloat64 9007199254740993 = 9007199254740992 ∧
    roundFloat64 9007199254740995 = 9007199254740996 ∧
    roundFloat64 (-9007199254740993) = -9007199254740992 ∧
    roundFloat64 18014398509481986 = 18014398509481984 ∧
    roundFloat64 18014398509481990 = 18014398509481992 ∧
    roundFloat64 9223372036854775807 = 9223372036854775808 := by
  decide

/-- C10, amended: the real-server add calls `setupService` issues are, when it returns nil,
one per backend of the service in order, each with the weight 1 when the configured weight is
0 and the configured weight otherwise; the backend-weight gauge writes it makes are one per
backend, with that same weight converted to `float64`, which is the weight itself whenever
its magnitude is at most 2^53; and when it returns an error it has issued and published
none. -/
theorem setupService_weight {σ : Type} (H : Host σ) (svc : Service) (s : Sys σ) :
    (issued s (setupService H svc s).2).filter isServerAdd =
      (if (setupService H svc s).1 = none then svc.Backends.map (serverAdd svc) else []) ∧
    (written s (setupService H svc s).2).filter (fun x => decide (x.gauge = Gauge.BackendWeight)) =
      (if (setupService H svc s).1 = none then svc.Backends.map (weightSample svc) else []) ∧
    (∀ b : Backend, b.Weight = 0 → effectiveWeight b = 1) ∧
    (∀ b : Backend, b.Weight ≠ 0 → effectiveWeight b = b.Weight) ∧
    (∀ b : Backend, (weightSample svc b).value = float64 (effectiveWeight b)) ∧
    (∀ n : Int, n.natAbs ≤ 2 ^ 53 → float64 n = Value.ofInt n) := by
  obtain ⟨a, u, c, w, -, h⟩ := setupService_spec H svc s
  refine ⟨?_, ?_, fun b hb => by simp [effectiveWeight, hb],
    fun b hb => by simp [effectiveWeight, hb], fun b => rfl,
    fun n hn => by unfold float64 roundFloat64; rw [if_pos hn]⟩
  · by_cases hr : (setupService H svc s).1 = none
    · rw [if_pos hr] at h ⊢
      rw [h.1, ← List.append_assoc, ← List.append_assoc, List.filter_append,
        filter_serverAdd_map, List.filter_eq_nil_iff.2, List.nil_append]
      intro x hx
      rw [List.append_assoc] at hx
      simpa using not_serverAdd_steps svc _ _ _ _ x hx
    · rw [if_neg hr] at h ⊢
      exact filter_prefix_nil _ h.1 (not_serverAdd_steps svc _ _ _ _)
  · by_cases hr : (setupService H svc s).1 = none
    · rw [if_pos hr] at h ⊢
      rw [written_append s _ (serviceSamples svc) (by rw [h.2])]
      exact weights_of_samples svc svc.Backends _ (by simp)
    · rw [if_neg hr] at h ⊢
      rw [written_append s _ [] (by rw [h.2]; simp)]
      rfl

/-- A service with a real server of configured weight 0, on a host that accepts every
command: the one real-server add call carries the weight 1 and the backend-weight gauge is
written with 1; a configured weight 5 is passed on as it is, and as a `float64` it is 5. -/
theorem setupService_weight_witness :
    (issued (freshSys [exampleService])
        (setupService okHost exampleService (freshSys [exampleService])).2).filter isServerAdd =
      [⟨"ipvsadm", ["-a", "-t", "10.0.0.1:80", "-r", "10.0.0.2:8080", "-m", "-w", "1"]⟩] ∧
    (written (freshSys [exampleService])
        (setupService okHost exampleService (freshSys [exampleService])).2).filter
          (fun x => decide (x.gauge = Gauge.BackendWeight)) =
      [⟨Gauge.BackendWeight, ["10.0.0.1:80", "10.0.0.2:8080", "default"], Value.ofInt 1⟩] ∧
    (⟨"10.0.0.2", 8080, 0⟩ : Backend).Weight = 0 ∧
    effectiveWeight ⟨"10.0.0.2", 8080, 0⟩ = 1 ∧
    (⟨"10.0.0.2", 8080, 5⟩ : Backend).Weight ≠ 0 ∧
    effectiveWeight ⟨"10.0.0.2", 8080, 5⟩ = 5 ∧
    (5 : Int).natAbs ≤ 2 ^ 53 ∧
    float64 5 = Value.ofInt 5 := by
  have h := setupService_weight okHost exampleService (freshSys [exampleService])
  refine ⟨?_, ?_, rfl, h.2.2.1 ⟨"10.0.0.2", 8080, 0⟩ rfl, by decide,
    h.2.2.2.1 ⟨"10.0.0.2", 8080, 5⟩ (by decide), by decide, h.2.2.2.2.2 5 (by decide)⟩
  · rw [h.1]
    decide
  · rw [h.2.1]
    decide

/-- The claim C10 fails as stated: for a real server of configured weight 2^53 + 1, on a host
that accepts every command, the add call carries 9007199254740993 and the backend-weight
gauge is written with 9007199254740992, the `float64` nearest to the weight. -/
theorem setupService_weight_rounded :
    (issued (freshSys [heavyService])
        (setupService okHost heavyService (freshSys [heavyService])).2).filter isServerAdd =
      [⟨"ipvsadm", ["-a", "-t", "10.0.0.1:80", "-r", "10.0.0.2:8080", "-m", "-w",
        "9007199254740993"]⟩] ∧
    (written (freshSys [heavyService])
        (setupService okHost heavyService (freshSys [heavyService])).2).filter
          (fun x => decide (x.gauge = Gauge.BackendWeight)) =
      [⟨Gauge.BackendWeight, ["10.0.0.1:80", "10.0.0.2:8080", "default"],
        Value.ofInt 9007199254740992⟩] ∧
    Value.ofInt 9007199254740992 ≠ Value.ofInt 9007199254740993 := by
  decide


/-! ## The teardown -/

theorem deleteRules_spec {σ : Type} (H : Host σ) (l : List String) (s : Sys σ) :
    (deleteRules H l s).calls = s.calls ++ ruleDeletes l ∧ (deleteRules H l s).m = s.m := by
  induction l generalizing s with
  | nil => simp [deleteRules, ruleDeletes]
  | cons r rest ih =>
    rcases h : Split r ':' with _ | ⟨p0, _ | ⟨p1, t⟩⟩ <;>
      simp [deleteRules, ruleDeletes, h, ih]

theorem deleteVIPs_spec {σ : Type} (H : Host σ) (l : List String) (s : Sys σ) :
    (deleteVIPs H l s).calls = s.calls ++ vipDeletes l ∧ (deleteVIPs H l s).m = s.m := by
  induction l generalizing s with
  | nil => simp [deleteVIPs, vipDeletes]
  | cons r rest ih =>
    rcases h : Split r '/' with _ | ⟨p0, _ | ⟨p1, _ | ⟨p2, t⟩⟩⟩ <;>
      simp [deleteVIPs, vipDeletes, h, ih]

theorem deleteIfaces_spec {σ : Type} (H : Host σ) (l : List String) (s : Sys σ) :
    (deleteIfaces H l s).calls = s.calls ++ ifaceDeletes l ∧ (deleteIfaces H l s).m = s.m := by
  induction l generalizing s with
  | nil => simp [deleteIfaces, ifaceDeletes]
  | cons r rest ih => simp [deleteIfaces, ifaceDeletes, ih]

theorem deleteSNATRules_spec {σ : Type} (H : Host σ) (ip : String) (l : List Service)
    (s : Sys σ) :
    (deleteSNATRules H ip l s).calls = s.calls ++ l.map (natDelete ip) ∧
      (deleteSNATRules H ip l s).m = s.m := by
  induction l generalizing s with
  | nil => simp [deleteSNATRules]
  | cons r rest ih => simp [deleteSNATRules, natDelete, ih]

theorem restoreSysctlLoop_spec {σ : Type} (H : Host σ) (l : List (String × String))
    (s : Sys σ) :
    (restoreSysctlLoop H l s).calls = s.calls ++ sysctlRestores l ∧
      (restoreSysctlLoop H l s).m = s.m := by
  induction l generalizing s with
  | nil => simp [restoreSysctlLoop, sysctlRestores]
  | cons r rest ih => simp [restoreSysctlLoop, sysctlRestores, ih]

/-- `Cleanup`, whole: the commands it issues are those of the five loops in order; they are
fixed by the ledger, the configuration, the captured tunables and the local address, and it
leaves the manager as it was. -/
theorem Cleanup_spec {σ : Type} (H : Host σ) (rev : Bool) (s : Sys σ) :
    ∃ localIP : String,
      (Cleanup H rev s).calls = s.calls ++ (ruleDeletes s.m.createdRules ++
        (vipDeletes s.m.createdVIPs ++ (ifaceDeletes s.m.createdIfaces ++
          (s.m.config.Services.map (natDelete localIP) ++
            sysctlRestores (rangeOrder rev s.m.originalSysctls))))) ∧
      (Cleanup H rev s).m = s.m := by
  refine ⟨(GetLocalIP H (deleteIfaces H s.m.createdIfaces (deleteVIPs H s.m.createdVIPs
    (deleteRules H s.m.createdRules s)))).1.getD "", ?_⟩
  simp only [Cleanup, restoreSysctl, removeSNATRules, restoreSysctlLoop_spec,
    deleteSNATRules_spec, deleteIfaces_spec, deleteVIPs_spec, deleteRules_spec, GetLocalIP,
    List.append_assoc, and_self]

theorem natDelete_kind (ip : String) (svc : Service) : isNatDelete (natDelete ip svc) = true := by
  have e1 : isSpace ' ' = true := by decide
  have e2 : isSpace '-' = false := by decide
  have e3 : isSpace 't' = false := by decide
  have e4 : isSpace 'n' = false := by decide
  have e5 : isSpace 'a' = false := by decide
  have e6 : isSpace 'D' = false := by decide
  simp [natDelete, isNatDelete, Fields, fieldsFrom, e1, e2, e3, e4, e5, e6]

theorem ruleDeletes_kind (l : List String) : (ruleDeletes l).all isServiceDelete = true := by
  rw [List.all_eq_true]
  intro x hx
  simp only [ruleDeletes, List.mem_flatten, List.mem_map] at hx
  obtain ⟨_, ⟨r, -, rfl⟩, hx⟩ := hx
  rcases h : Split r ':' with _ | ⟨p0, _ | ⟨p1, t⟩⟩ <;> simp [h] at hx
  subst hx
  simp [isServiceDelete]

theorem vipDeletes_kind (l : List String) : (vipDeletes l).all isUnbind = true := by
  rw [List.all_eq_true]
  intro x hx
  simp only [vipDeletes, List.mem_flatten, List.mem_map] at hx
  obtain ⟨_, ⟨r, -, rfl⟩, hx⟩ := hx
  rcases h : Split r '/' with _ | ⟨p0, _ | ⟨p1, _ | ⟨p2, t⟩⟩⟩ <;> simp [h] at hx
  subst hx
  simp [isUnbind]

theorem ifaceDeletes_kind (l : List String) : (ifaceDeletes l).all isIfaceDelete = true := by
  simp [ifaceDeletes, isIfaceDelete]

theorem natDeletes_kind (ip : String) (l : List Service) :
    (l.map (natDelete ip)).all isNatDelete = true := by
  simp [List.all_eq_true, natDelete_kind]

theorem sysctlRestores_kind (l : List (String × String)) :
    (sysctlRestores l).all isSysctlWrite = true := by
  rw [List.all_eq_true]
  intro x hx
  simp only [sysctlRestores, List.mem_map] at hx
  obtain ⟨p, -, rfl⟩ := hx
  simp [isSysctlWrite]

/-- C7: whatever the host answers to each command, `Cleanup` runs to its end and the commands
it issues are, in this order, the virtual-service deletes of `createdRules`, the address
unbinds of `createdVIPs`, the interface deletes of `createdIfaces`, the NAT-rule deletes of
the configured services and the writes that restore the captured tunables; every command of
each group is of the kind of its group. -/
theorem Cleanup_order {σ : Type} (H : Host σ) (rev : Bool) (s : Sys σ) :
    ∃ localIP : String,
      (Cleanup H rev s).calls = s.calls ++ (ruleDeletes s.m.createdRules ++
        (vipDeletes s.m.createdVIPs ++ (ifaceDeletes s.m.createdIfaces ++
          (s.m.config.Services.map (natDelete localIP) ++
            sysctlRestores (rangeOrder rev s.m.originalSysctls))))) ∧
      (ruleDeletes s.m.createdRules).all isServiceDelete = true ∧
      (vipDeletes s.m.createdVIPs).all isUnbind = true ∧
      (ifaceDeletes s.m.createdIfaces).all isIfaceDelete = true ∧
      (s.m.config.Services.map (natDelete localIP)).all isNatDelete = true ∧
      (sysctlRestores (rangeOrder rev s.m.originalSysctls)).all isSysctlWrite = true := by
  obtain ⟨ip, h, -⟩ := Cleanup_spec H rev s
  exact ⟨ip, h, ruleDeletes_kind _, vipDeletes_kind _, ifaceDeletes_kind _,
    natDeletes_kind _ _, sysctlRestores_kind _⟩


/-! ## The loop of Setup -/

/-- The commands of the reconciler for a service are `ip` and `ipvsadm` commands. -/
theorem service_calls_names (svc : Service) (f a c l : Bool) :
    ∀ x ∈ ifaceCalls (ifaceOf svc) f a ++ (vipCalls svc c ++ (serviceCalls svc l ++
      svc.Backends.map (serverAdd svc))), x.name = "ip" ∨ x.name = "ipvsadm" := by
  have h : (ifaceCalls (ifaceOf svc) f a ++ (vipCalls svc c ++ serviceCalls svc l)).all
      (fun x => decide (x.name = "ip" ∨ x.name = "ipvsadm")) = true := by
    cases f <;> cases a <;> cases c <;> cases l <;> simp [ifaceCalls, vipCalls, serviceCalls]
  intro x hx
  rw [← List.append_assoc, ← List.append_assoc, List.mem_append] at hx
  rcases hx with hx | hx
  · rw [List.append_assoc] at hx
    simpa using List.all_eq_true.1 h x hx
  · obtain ⟨b, -, rfl⟩ := List.mem_map.1 hx
    simp [serverAdd]

theorem setupService_names {σ : Type} (H : Host σ) (svc : Service) (s : Sys σ) :
    ∀ x ∈ issued s (setupService H svc s).2, x.name = "ip" ∨ x.name = "ipvsadm" := by
  obtain ⟨a, u, c, w, -, h⟩ := setupService_spec H svc s
  intro x hx
  by_cases hr : (setupService H svc s).1 = none
  · rw [if_pos hr] at h
    rw [h.1] at hx
    exact service_calls_names svc _ _ _ _ x hx
  · rw [if_neg hr] at h
    have hx' := h.1.subset hx
    apply service_calls_names svc _ a c _ x
    simp only [List.mem_append] at hx' ⊢
    tauto

@[simp] theorem GetLocalIP_calls {σ : Type} (H : Host σ) (s : Sys σ) :
    (GetLocalIP H s).2.calls = s.calls := rfl
@[simp] theorem GetLocalIP_m {σ : Type} (H : Host σ) (s : Sys σ) :
    (GetLocalIP H s).2.m = s.m := rfl

/-- `addSNATRules`: it issues `iptables` commands only, and records one key in
`createdSNATRules` exactly when it returns nil. -/
theorem addSNATRules_spec {σ : Type} (H : Host σ) (svc : Service) (s : Sys σ) :
    ∃ (new : List Cmd) (key : String),
      (addSNATRules H svc s).2.calls = s.calls ++ new ∧
      (∀ x ∈ new, x.name = "iptables") ∧
      (addSNATRules H svc s).2.m = { s.m with
        metrics := s.m.metrics ++ (if (addSNATRules H svc s).1 = none then
          [⟨Gauge.SnatRulesCount, [businessLabel svc],
            float64 (s.m.createdSNATRules.length + 1 : Nat)⟩] else []),
        createdSNATRules := s.m.createdSNATRules ++
          (if (addSNATRules H svc s).1 = none then [key] else []) } := by
  rcases hg : (GetLocalIP H s).1 with _ | ip
  · exact ⟨[], "", by simp [addSNATRules, hg]⟩
  · by_cases h1 : (H.command (GetLocalIP H s).2.world ⟨"iptables", Fields ("-t nat -C" ++
        (" POSTROUTING -m ipvs --vaddr " ++ svc.VIP ++ " --vport " ++ Itoa svc.LocalPort ++
          " -j SNAT --to-source " ++ ip))⟩).1.1 = true
    · refine ⟨[⟨"iptables", Fields ("-t nat -C" ++
        (" POSTROUTING -m ipvs --vaddr " ++ svc.VIP ++ " --vport " ++ Itoa svc.LocalPort ++
          " -j SNAT --to-source " ++ ip))⟩],
        svc.VIP ++ ":" ++ Itoa svc.LocalPort ++ "->" ++ ip, ?_⟩
      simp [addSNATRules, hg, h1, setGauge]
    · by_cases h2 : (H.command (H.command (GetLocalIP H s).2.world ⟨"iptables",
          Fields ("-t nat -C" ++
          (" POSTROUTING -m ipvs --vaddr " ++ svc.VIP ++ " --vport " ++ Itoa svc.LocalPort ++
            " -j SNAT --to-source " ++ ip))⟩).2 ⟨"iptables", Fields ("-t nat -A" ++
          (" POSTROUTING -m ipvs --vaddr " ++ svc.VIP ++ " --vport " ++ Itoa svc.LocalPort ++
            " -j SNAT --to-source " ++ ip))⟩).1.1 = true
      · refine ⟨[⟨"iptables", Fields ("-t nat -C" ++
          (" POSTROUTING -m ipvs --vaddr " ++ svc.VIP ++ " --vport " ++ Itoa svc.LocalPort ++
            " -j SNAT --to-source " ++ ip))⟩, ⟨"iptables", Fields ("-t nat -A" ++
          (" POSTROUTING -m ipvs --vaddr " ++ svc.VIP ++ " --vport " ++ Itoa svc.LocalPort ++
            " -j SNAT --to-source " ++ ip))⟩],
          svc.VIP ++ ":" ++ Itoa svc.LocalPort ++ "->" ++ ip, ?_⟩
        simp [addSNATRules, hg, h1, h2, setGauge]
      · refine ⟨[⟨"iptables", Fields ("-t nat -C" ++
          (" POSTROUTING -m ipvs --vaddr " ++ svc.VIP ++ " --vport " ++ Itoa svc.LocalPort ++
            " -j SNAT --to-source " ++ ip))⟩, ⟨"iptables", Fields ("-t nat -A" ++
          (" POSTROUTING -m ipvs --vaddr " ++ svc.VIP ++ " --vport " ++ Itoa svc.LocalPort ++
            " -j SNAT --to-source " ++ ip))⟩], "", ?_⟩
        simp [addSNATRules, hg, h1, h2]

/-- What `setupService` does to the ledger: it records the service key exactly when it
returns nil, then also the VIP key, and it leaves the configuration, the captured tunables
and the NAT rules alone. -/
theorem setupService_ledger {σ : Type} (H : Host σ) (svc : Service) (s : Sys σ) :
    (setupService H svc s).2.m.config = s.m.config ∧
    (setupService H svc s).2.m.originalSysctls = s.m.originalSysctls ∧
    (setupService H svc s).2.m.createdSNATRules = s.m.createdSNATRules ∧
    (setupService H svc s).2.m.createdRules = s.m.createdRules ++
      (if (setupService H svc s).1 = none then [serviceKey svc] else []) ∧
    ((setupService H svc s).1 = none →
      (setupService H svc s).2.m.createdVIPs = s.m.createdVIPs ++ [vipKey svc]) := by
  obtain ⟨a, u, c, w, -, h⟩ := setupService_spec H svc s
  by_cases hr : (setupService H svc s).1 = none
  · rw [if_pos hr] at h
    simp [h.2, hr]
  · rw [if_neg hr] at h
    refine ⟨?_, ?_, ?_, ?_, fun h' => absurd h' hr⟩
    · rw [h.2]
    · rw [h.2]
    · rw [h.2]
    · rw [h.2]; simp [hr]

/-- The loop of `Setup` over the services: it issues `ip`, `ipvsadm` and `iptables` commands
only, leaves the configuration and the captured tunables alone and, when it returns nil, has
recorded one service key, one VIP key and one NAT rule for every service, in order. -/
theorem setupServices_spec {σ : Type} (H : Host σ) (l : List Service) (s : Sys σ) :
    ∃ new : List Cmd,
      (setupServices H l s).2.calls = s.calls ++ new ∧
      (∀ x ∈ new, x.name = "ip" ∨ x.name = "ipvsadm" ∨ x.name = "iptables") ∧
      (setupServices H l s).2.m.config = s.m.config ∧
      (setupServices H l s).2.m.originalSysctls = s.m.originalSysctls ∧
      ((setupServices H l s).1 = none →
        (setupServices H l s).2.m.createdRules = s.m.createdRules ++ l.map serviceKey ∧
        (setupServices H l s).2.m.createdVIPs = s.m.createdVIPs ++ l.map vipKey ∧
        (setupServices H l s).2.m.createdSNATRules.length =
          s.m.createdSNATRules.length + l.length) := by
  induction l generalizing s with
  | nil => exact ⟨[], by simp [setupServices]⟩
  | cons svc rest ih =>
    obtain ⟨-, -, -, -, hc, -⟩ := setupService_spec H svc s
    have hn := setupService_names H svc s
    obtain ⟨l1, l2, l3, l4, l5⟩ := setupService_ledger H svc s
    obtain ⟨new2, key, n1, n2, n3⟩ := addSNATRules_spec H svc (setupService H svc s).2
    rcases hr : (setupService H svc s).1 with _ | e
    · rcases hs : (addSNATRules H svc (setupService H svc s).2).1 with _ | e
      · obtain ⟨new3, i1, i2, i3, i4, i5⟩ := ih (addSNATRules H svc (setupService H svc s).2).2
        have e : setupServices H (svc :: rest) s =
            setupServices H rest (addSNATRules H svc (setupService H svc s).2).2 := by
          simp only [setupServices, hr, hs]
        rw [e]
        refine ⟨issued s (setupService H svc s).2 ++ (new2 ++ new3), ?_, ?_, ?_, ?_, ?_⟩
        · rw [i1, n1, hc]; simp
        · intro x hx
          simp only [List.mem_append] at hx
          rcases hx with hx | hx | hx
          · rcases hn x hx with h | h <;> simp [h]
          · simp [n2 x hx]
          · exact i2 x hx
        · rw [i3, n3, l1]
        · rw [i4, n3, l2]
        · intro hok
          obtain ⟨j1, j2, j3⟩ := i5 hok
          rw [j1, j2, j3, n3]
          simp [l4, l5 hr, l3, hr, hs]
          omega
      · have e' : setupServices H (svc :: rest) s =
            (some ("add SNAT rules for " ++ svc.VIP ++ ":" ++ Itoa svc.LocalPort ++ ": " ++ e),
              (addSNATRules H svc (setupService H svc s).2).2) := by
          simp only [setupServices, hr, hs]
        rw [e']
        refine ⟨issued s (setupService H svc s).2 ++ new2, ?_, ?_, ?_, ?_, ?_⟩
        · rw [n1, hc]; simp
        · intro x hx
          simp only [List.mem_append] at hx
          rcases hx with hx | hx
          · rcases hn x hx with h | h <;> simp [h]
          · simp [n2 x hx]
        · simp only [n3, l1]
        · simp only [n3, l2]
        · intro hok; simp at hok
    · have e' : setupServices H (svc :: rest) s =
          (some ("setup service " ++ svc.VIP ++ ":" ++ Itoa svc.LocalPort ++ ": " ++ e),
            (setupService H svc s).2) := by
        simp only [setupServices, hr]
      rw [e']
      refine ⟨issued s (setupService H svc s).2, hc, ?_, l1, l2, ?_⟩
      · intro x hx
        rcases hn x hx with h | h <;> simp [h]
      · intro hok; simp at hok


/-! ## Setup -/

/-- `configureSysctl` on a host that answers every tunable query with a baseline: for the
two tunables in the chosen order, it queries the first and overwrites it and, when that
overwrite ran without error (`b`), does the same with the second; the captured values are
the trimmed baselines of the tunables it has queried. -/
theorem configureSysctlLoop_two {σ : Type} (H : Host σ) (base : String → String)
    (hq : ∀ w p, (H.command w ⟨"sysctl", ["-n", p]⟩).1 = (true, base p))
    (p q : String × String) (hpq : p.1 ≠ q.1) (s : Sys σ) (hs : s.m.originalSysctls = []) :
    ∃ b : Bool,
      (configureSysctlLoop H [p, q] s).2.calls = s.calls ++
        (⟨"sysctl", ["-n", p.1]⟩ :: ⟨"sysctl", ["-w", p.1 ++ "=" ++ p.2]⟩ ::
          if b then [⟨"sysctl", ["-n", q.1]⟩, ⟨"sysctl", ["-w", q.1 ++ "=" ++ q.2]⟩] else []) ∧
      (configureSysctlLoop H [p, q] s).2.m.originalSysctls =
        (p.1, TrimSpace (base p.1)) :: (if b then [(q.1, TrimSpace (base q.1))] else []) ∧
      (configureSysctlLoop H [p, q] s).2.m.config = s.m.config ∧
      (configureSysctlLoop H [p, q] s).2.m.createdRules = s.m.createdRules ∧
      (configureSysctlLoop H [p, q] s).2.m.createdVIPs = s.m.createdVIPs ∧
      (configureSysctlLoop H [p, q] s).2.m.createdIfaces = s.m.createdIfaces ∧
      (configureSysctlLoop H [p, q] s).2.m.createdSNATRules = s.m.createdSNATRules ∧
      ((configureSysctlLoop H [p, q] s).1 = none → b = true) := by
  by_cases h1 : (H.command (H.command s.world ⟨"sysctl", ["-n", p.1]⟩).2
      ⟨"sysctl", ["-w", p.1 ++ "=" ++ p.2]⟩).1.1 = true
  · refine ⟨true, ?_⟩
    by_cases h2 : (H.command (H.command (H.command (H.command s.world
        ⟨"sysctl", ["-n", p.1]⟩).2 ⟨"sysctl", ["-w", p.1 ++ "=" ++ p.2]⟩).2
        ⟨"sysctl", ["-n", q.1]⟩).2 ⟨"sysctl", ["-w", q.1 ++ "=" ++ q.2]⟩).1.1 = true
    · simp [configureSysctlLoop, setGauge, exec, hq, h1, h2, hs, mapSet, hpq]
    · simp [configureSysctlLoop, setGauge, exec, hq, h1, h2, hs, mapSet, hpq]
  · refine ⟨false, ?_⟩
    simp [configureSysctlLoop, setGauge, exec, hq, h1, hs, mapSet]

/-- `configureSysctl` touches the captured tunables and the gauges only. -/
theorem configureSysctlLoop_frame {σ : Type} (H : Host σ) (l : List (String × String))
    (s : Sys σ) :
    (configureSysctlLoop H l s).2.m.config = s.m.config ∧
    (configureSysctlLoop H l s).2.m.createdRules = s.m.createdRules ∧
    (configureSysctlLoop H l s).2.m.createdVIPs = s.m.createdVIPs ∧
    (configureSysctlLoop H l s).2.m.createdIfaces = s.m.createdIfaces ∧
    (configureSysctlLoop H l s).2.m.createdSNATRules = s.m.createdSNATRules := by
  induction l generalizing s with
  | nil => simp [configureSysctlLoop]
  | cons p rest ih =>
    simp only [configureSysctlLoop]
    split_ifs <;> simp [ih, setGauge]

/-- The ledger after a `Setup` that returned nil: one service key, one VIP key and one NAT
rule for every configured service, in order, appended to what was there; the configuration
is never changed. -/
theorem Setup_ledger {σ : Type} (H : Host σ) (rev : Bool) (s : Sys σ) :
    (Setup H rev s).2.m.config = s.m.config ∧
    ((Setup H rev s).1 = none →
      (Setup H rev s).2.m.createdRules =
        s.m.createdRules ++ s.m.config.Services.map serviceKey ∧
      (Setup H rev s).2.m.createdVIPs = s.m.createdVIPs ++ s.m.config.Services.map vipKey ∧
      (Setup H rev s).2.m.createdSNATRules.length =
        s.m.createdSNATRules.length + s.m.config.Services.length) := by
  obtain ⟨f1, f2, f3, f4, f5⟩ := configureSysctlLoop_frame H (rangeOrder rev sysctlParams) s
  rcases hc : (configureSysctl H rev s).1 with _ | e
  · obtain ⟨new, -, -, g3, -, g5⟩ := setupServices_spec H s.m.config.Services
      (exec H ⟨"modprobe", ["dummy"]⟩ (exec H ⟨"modprobe", ["ip_vs"]⟩
        (configureSysctl H rev s).2).2).2
    have e : Setup H rev s = setupServices H s.m.config.Services
        (exec H ⟨"modprobe", ["dummy"]⟩ (exec H ⟨"modprobe", ["ip_vs"]⟩
          (configureSysctl H rev s).2).2).2 := by
      simp only [Setup, hc, exec_m]
      simp only [configureSysctl, f1]
    rw [e]
    refine ⟨?_, fun hok => ?_⟩
    · rw [g3]; simpa [configureSysctl] using f1
    · obtain ⟨j1, j2, j3⟩ := g5 hok
      simp only [exec_m, configureSysctl, f2, f3, f5] at j1 j2 j3
      exact ⟨j1, j2, j3⟩
  · have e' : Setup H rev s = (some ("configure sysctl: " ++ e), (configureSysctl H rev s).2) := by
      simp only [Setup, hc]
    rw [e']
    exact ⟨by simpa [configureSysctl] using f1, fun hok => by simp at hok⟩

/-- `Setup` on a host that answers every tunable query with a baseline, from a state with no
captured tunable: its commands start with the query and the overwrite of the first tunable
and, when that overwrite ran without error (`b`), of the second; no later command is a
`sysctl` command; the captured values are the trimmed baselines of the tunables queried. -/
theorem Setup_sysctl {σ : Type} (H : Host σ) (base : String → String)
    (hq : ∀ w p, (H.command w ⟨"sysctl", ["-n", p]⟩).1 = (true, base p))
    (p q : String × String) (hpq : p.1 ≠ q.1) (rev : Bool)
    (hord : rangeOrder rev sysctlParams = [p, q]) (s : Sys σ)
    (hs : s.m.originalSysctls = []) :
    ∃ (b : Bool) (rest : List Cmd),
      (Setup H rev s).2.calls = s.calls ++
        (⟨"sysctl", ["-n", p.1]⟩ :: ⟨"sysctl", ["-w", p.1 ++ "=" ++ p.2]⟩ ::
          ((if b then [⟨"sysctl", ["-n", q.1]⟩, ⟨"sysctl", ["-w", q.1 ++ "=" ++ q.2]⟩] else []) ++
            rest)) ∧
      (∀ x ∈ rest, x.name ≠ "sysctl") ∧
      (Setup H rev s).2.m.originalSysctls =
        (p.1, TrimSpace (base p.1)) :: (if b then [(q.1, TrimSpace (base q.1))] else []) ∧
      ((Setup H rev s).1 = none → b = true) := by
  obtain ⟨b, c1, c2, c3, -, -, -, -, c8⟩ := configureSysctlLoop_two H base hq p q hpq s hs
  rw [← hord] at c1 c2 c3 c8
  refine ⟨b, ?_⟩
  rcases hc : (configureSysctl H rev s).1 with _ | e
  · obtain ⟨new, g1, g2, -, g4, -⟩ := setupServices_spec H
      (exec H ⟨"modprobe", ["dummy"]⟩ (exec H ⟨"modprobe", ["ip_vs"]⟩
        (configureSysctl H rev s).2).2).2.m.config.Services
      (exec H ⟨"modprobe", ["dummy"]⟩ (exec H ⟨"modprobe", ["ip_vs"]⟩
        (configureSysctl H rev s).2).2).2
    have e : Setup H rev s = setupServices H
        (exec H ⟨"modprobe", ["dummy"]⟩ (exec H ⟨"modprobe", ["ip_vs"]⟩
          (configureSysctl H rev s).2).2).2.m.config.Services
        (exec H ⟨"modprobe", ["dummy"]⟩ (exec H ⟨"modprobe", ["ip_vs"]⟩
          (configureSysctl H rev s).2).2).2 := by
      simp only [Setup, hc]
    rw [e]
    refine ⟨⟨"modprobe", ["ip_vs"]⟩ :: ⟨"modprobe", ["dummy"]⟩ :: new, ?_, ?_, ?_,
      fun _ => c8 (by simpa [configureSysctl] using hc)⟩
    · rw [g1]
      simp only [exec_calls, configureSysctl, c1]
      cases b <;> simp
    · intro x hx
      simp only [List.mem_cons] at hx
      rcases hx with rfl | rfl | hx
      · decide
      · decide
      · rcases g2 x hx with h | h | h <;> simp [h]
    · rw [g4]
      simpa [configureSysctl] using c2
  · have e' : Setup H rev s = (some ("configure sysctl: " ++ e), (configureSysctl H rev s).2) := by
      simp only [Setup, hc]
    rw [e']
    refine ⟨[], ?_, by simp, ?_, fun hok => by simp at hok⟩
    · simpa [configureSysctl] using c1
    · simpa [configureSysctl] using c2


/-! ## The round trip of the tunables -/

theorem mem_rangeOrder {α : Type} (rev : Bool) (l : List α) (x : α) :
    x ∈ rangeOrder rev l ↔ x ∈ l := by
  cases rev <;> simp [rangeOrder]

/-- No command of the first four groups of `Cleanup` is a tunable write. -/
theorem removals_not_sysctl (rules vips ifaces : List String) (ip : String)
    (services : List Service) :
    ∀ c ∈ ruleDeletes rules ++ (vipDeletes vips ++ (ifaceDeletes ifaces ++
      services.map (natDelete ip))), isSysctlWrite c = false := by
  intro c hc
  simp only [List.mem_append] at hc
  have hname : c.name = "ipvsadm" ∨ c.name = "ip" ∨ c.name = "iptables" := by
    rcases hc with h | h | h | h
    · have := List.all_eq_true.1 (ruleDeletes_kind rules) c h
      simp [isServiceDelete] at this
      exact Or.inl this.1
    · have := List.all_eq_true.1 (vipDeletes_kind vips) c h
      simp [isUnbind] at this
      exact Or.inr (Or.inl this.1)
    · have := List.all_eq_true.1 (ifaceDeletes_kind ifaces) c h
      simp [isIfaceDelete] at this
      exact Or.inr (Or.inl this.1)
    · have := List.all_eq_true.1 (natDeletes_kind ip services) c h
      simp [isNatDelete] at this
      exact Or.inr (Or.inr this.1)
  rcases hname with h | h | h <;> simp [isSysctlWrite, h]

/-- The round trip of the tunables for two tunables `p` and `q` in the order `Setup` ranges
over them. -/
theorem roundtrip_core {σ : Type} (H : Host σ) (base : String → String)
    (hq : ∀ w p, (H.command w ⟨"sysctl", ["-n", p]⟩).1 = (true, base p))
    (p q : String × String) (hpq : p.1 ≠ q.1) (hw : p.1 ++ "=" ++ p.2 ≠ q.1 ++ "=" ++ q.2)
    (rev rev' : Bool) (hord : rangeOrder rev sysctlParams = [p, q]) (w : σ) (conf : Config) :
    (∀ x ∈ [p, q],
      (⟨"sysctl", ["-w", x.1 ++ "=" ++ x.2]⟩ : Cmd) ∈ (Setup H rev (freshRun w conf)).2.calls →
      (⟨"sysctl", ["-w", x.1 ++ "=" ++ TrimSpace (base x.1)]⟩ : Cmd) ∈
          issued (Setup H rev (freshRun w conf)).2
            (Cleanup H rev' (Setup H rev (freshRun w conf)).2) ∧
        (Setup H rev (freshRun w conf)).2.calls.indexOf ⟨"sysctl", ["-n", x.1]⟩ <
          (Setup H rev (freshRun w conf)).2.calls.indexOf
            ⟨"sysctl", ["-w", x.1 ++ "=" ++ x.2]⟩) ∧
    (∀ c ∈ issued (Setup H rev (freshRun w conf)).2
        (Cleanup H rev' (Setup H rev (freshRun w conf)).2),
      isSysctlWrite c = true →
        ∃ x ∈ [p, q], c = ⟨"sysctl", ["-w", x.1 ++ "=" ++ TrimSpace (base x.1)]⟩) ∧
    ((Setup H rev (freshRun w conf)).1 = none →
      ∀ x ∈ [p, q],
        (⟨"sysctl", ["-w", x.1 ++ "=" ++ x.2]⟩ : Cmd) ∈ (Setup H rev (freshRun w conf)).2.calls) := by
  obtain ⟨b, rest, hcalls, hrest, horig, hb⟩ :=
    Setup_sysctl H base hq p q hpq rev hord (freshRun w conf) rfl
  obtain ⟨ip, hclean, -⟩ := Cleanup_spec H rev' (Setup H rev (freshRun w conf)).2
  have hiss := issued_append _ _ _ hclean
  have hnot := removals_not_sysctl (Setup H rev (freshRun w conf)).2.m.createdRules
    (Setup H rev (freshRun w conf)).2.m.createdVIPs
    (Setup H rev (freshRun w conf)).2.m.createdIfaces ip
    (Setup H rev (freshRun w conf)).2.m.config.Services
  have hfresh : (freshRun w conf).calls = [] := rfl
  rw [hfresh, List.nil_append] at hcalls
  have hrestq : (⟨"sysctl", ["-w", q.1 ++ "=" ++ q.2]⟩ : Cmd) ∉ rest :=
    fun h => hrest _ h rfl
  have hrestn : ∀ y : String, (⟨"sysctl", ["-n", y]⟩ : Cmd) ∉ rest := fun y h => hrest _ h rfl
  refine ⟨?_, ?_, ?_⟩
  · intro x hx hm
    simp only [List.mem_cons, List.mem_singleton, List.not_mem_nil, or_false] at hx
    rw [hiss, hcalls]
    rcases hx with rfl | rfl
    · constructor
      · simp only [List.mem_append, sysctlRestores, List.mem_map, mem_rangeOrder, horig]
        exact Or.inr (Or.inr (Or.inr (Or.inr ⟨(x.1, TrimSpace (base x.1)), by simp, rfl⟩)))
      · simp [List.indexOf_cons]
    · have hbt : b = true := by
        cases b
        · rw [hcalls] at hm
          simp only [List.mem_cons, Bool.false_eq_true, if_false, List.nil_append] at hm
          rcases hm with h | h | h
          · simp at h
          · simp at h; exact absurd h.symm hw
          · exact absurd h hrestq
        · rfl
      subst hbt
      constructor
      · simp only [List.mem_append, sysctlRestores, List.mem_map, mem_rangeOrder, horig]
        exact Or.inr (Or.inr (Or.inr (Or.inr ⟨(x.1, TrimSpace (base x.1)), by simp, rfl⟩)))
      · have h1 : ¬ ((⟨"sysctl", ["-w", p.1 ++ "=" ++ p.2]⟩ : Cmd) =
            ⟨"sysctl", ["-w", x.1 ++ "=" ++ x.2]⟩) := by simpa using hw
        have h2 : ¬ ((⟨"sysctl", ["-n", p.1]⟩ : Cmd) = ⟨"sysctl", ["-n", x.1]⟩) := by
          simpa using hpq
        simp [List.indexOf_cons, h1, h2]
  · intro c hc hk
    rw [hiss] at hc
    simp only [← List.append_assoc] at hc
    rw [List.mem_append] at hc
    rcases hc with hc | hc
    · simp only [List.append_assoc] at hc
      rw [hnot c hc] at hk
      exact absurd hk (by simp)
    · simp only [sysctlRestores, List.mem_map, mem_rangeOrder, horig] at hc
      obtain ⟨e, he, rfl⟩ := hc
      cases b
      · simp at he
        subst he
        exact ⟨p, by simp, rfl⟩
      · simp at he
        rcases he with rfl | rfl
        · exact ⟨p, by simp, rfl⟩
        · exact ⟨q, by simp, rfl⟩
  · intro hok x hx
    have hbt := hb hok
    subst hbt
    simp only [List.mem_cons, List.mem_singleton, List.not_mem_nil, or_false] at hx
    rw [hcalls]
    rcases hx with rfl | rfl <;> simp

/-- C8: on a host that answers the query of every tunable with a fixed baseline, after
`Setup` on a fresh manager followed by `Cleanup`: for each of the two tunables that `Setup`
has overwritten, `Cleanup` writes back the baseline that was queried (white space trimmed),
and `Setup` issued the query before the overwrite; every tunable write of `Cleanup` is such
a write-back; and a `Setup` that returned nil has overwritten both tunables. -/
theorem Setup_Cleanup_restores {σ : Type} (H : Host σ) (base : String → String)
    (rev rev' : Bool) (w : σ) (conf : Config)
    (hq : ∀ w p, (H.command w ⟨"sysctl", ["-n", p]⟩).1 = (true, base p)) :
    (∀ x ∈ sysctlParams,
      (⟨"sysctl", ["-w", x.1 ++ "=" ++ x.2]⟩ : Cmd) ∈ (Setup H rev (freshRun w conf)).2.calls →
      (⟨"sysctl", ["-w", x.1 ++ "=" ++ TrimSpace (base x.1)]⟩ : Cmd) ∈
          issued (Setup H rev (freshRun w conf)).2
            (Cleanup H rev' (Setup H rev (freshRun w conf)).2) ∧
        (Setup H rev (freshRun w conf)).2.calls.indexOf ⟨"sysctl", ["-n", x.1]⟩ <
          (Setup H rev (freshRun w conf)).2.calls.indexOf
            ⟨"sysctl", ["-w", x.1 ++ "=" ++ x.2]⟩) ∧
    (∀ c ∈ issued (Setup H rev (freshRun w conf)).2
        (Cleanup H rev' (Setup H rev (freshRun w conf)).2),
      isSysctlWrite c = true →
        ∃ x ∈ sysctlParams, c = ⟨"sysctl", ["-w", x.1 ++ "=" ++ TrimSpace (base x.1)]⟩) ∧
    ((Setup H rev (freshRun w conf)).1 = none →
      ∀ x ∈ sysctlParams,
        (⟨"sysctl", ["-w", x.1 ++ "=" ++ x.2]⟩ : Cmd) ∈ (Setup H rev (freshRun w conf)).2.calls) := by
  cases rev
  · exact roundtrip_core H base hq ("net.ipv4.vs.conntrack", "1") ("net.ipv4.ip_forward", "1")
      (by decide) (by decide) false rev' rfl w conf
  · obtain ⟨h1, h2, h3⟩ := roundtrip_core H base hq ("net.ipv4.ip_forward", "1")
      ("net.ipv4.vs.conntrack", "1") (by decide) (by decide) true rev' rfl w conf
    have hm : ∀ x : String × String, x ∈ sysctlParams ↔
        x ∈ [("net.ipv4.ip_forward", "1"), ("net.ipv4.vs.conntrack", "1")] := by
      intro x
      simp only [sysctlParams, List.mem_cons, List.mem_singleton, List.not_mem_nil, or_false]
      tauto
    refine ⟨fun x hx => h1 x ((hm x).1 hx), fun c hc hk => ?_, fun hok x hx =>
      h3 hok x ((hm x).1 hx)⟩
    obtain ⟨x, hx, rfl⟩ := h2 c hc hk
    exact ⟨x, (hm x).2 hx, rfl⟩

/-- A host whose tunables read `0`: after `Setup` and `Cleanup` for one service, `Cleanup`
has written `0` back to `net.ipv4.ip_forward` and `net.ipv4.vs.conntrack`. -/
theorem Setup_Cleanup_restores_witness :
    (∀ (w : Unit) (p : String),
      (baselineHost.command w ⟨"sysctl", ["-n", p]⟩).1 = (true, "0\n")) ∧
    (⟨"sysctl", ["-w", "net.ipv4.ip_forward=0"]⟩ : Cmd) ∈
      issued (Setup baselineHost false (freshRun () ⟨[exampleService], 9100⟩)).2
        (Cleanup baselineHost false
          (Setup baselineHost false (freshRun () ⟨[exampleService], 9100⟩)).2) ∧
    (⟨"sysctl", ["-w", "net.ipv4.vs.conntrack=0"]⟩ : Cmd) ∈
      issued (Setup baselineHost false (freshRun () ⟨[exampleService], 9100⟩)).2
        (Cleanup baselineHost false
          (Setup baselineHost false (freshRun () ⟨[exampleService], 9100⟩)).2) := by
  have hq : ∀ (w : Unit) (p : String),
      (baselineHost.command w ⟨"sysctl", ["-n", p]⟩).1 = (true, (fun _ => "0\n") p) := by
    intro w p
    simp [baselineHost]
  have h := (Setup_Cleanup_restores baselineHost (fun _ => "0\n") false false ()
    ⟨[exampleService], 9100⟩ hq).1
  have e1 : "net.ipv4.ip_forward" ++ "=" ++ TrimSpace "0\n" = "net.ipv4.ip_forward=0" := by
    decide
  have e2 : "net.ipv4.vs.conntrack" ++ "=" ++ TrimSpace "0\n" = "net.ipv4.vs.conntrack=0" := by
    decide
  refine ⟨hq, ?_, ?_⟩
  · have := (h ("net.ipv4.ip_forward", "1") (by decide) (by decide)).1
    simpa only [e1] using this
  · have := (h ("net.ipv4.vs.conntrack", "1") (by decide) (by decide)).1
    simpa only [e2] using this


/-! ## Ledger entries that were not created -/

/-- C6: `Cleanup` issues NAT-rule deletes that no ledger entry stands for. On a host where
every `ip` command fails, `Setup` for the one service 10.0.0.1:80 aborts in the interface
step, before the NAT step of the service, and leaves `createdSNATRules` empty; `Cleanup`
then still issues the NAT-rule delete for 10.0.0.1 port 80. -/
theorem Cleanup_nat_without_ledger :
    (Setup noIpHost false (freshRun () ⟨[exampleService], 9100⟩)).1 =
      some "setup service 10.0.0.1:80: create dummy interface ipvs0" ∧
    (Setup noIpHost false (freshRun () ⟨[exampleService], 9100⟩)).2.m.createdSNATRules = [] ∧
    (issued (Setup noIpHost false (freshRun () ⟨[exampleService], 9100⟩)).2
      (Cleanup noIpHost false
        (Setup noIpHost false (freshRun () ⟨[exampleService], 9100⟩)).2)).filter isNatDelete =
      [⟨"iptables", ["-t", "nat", "-D", "POSTROUTING", "-m", "ipvs", "--vaddr", "10.0.0.1",
        "--vport", "80", "-j", "SNAT", "--to-source", "192.168.0.9"]⟩] := by
  decide

/-- The claim C5 fails as stated: on a host where the interface and the virtual service
already exist, a second `setupService` for 10.0.0.1:80 appends a second service key to
`createdRules`, and it does so without any virtual-service create call having been issued. -/
theorem setupService_records_again :
    (setupService okHost exampleService (freshSys [exampleService])).2.m.createdRules =
      ["10.0.0.1:80:tcp"] ∧
    (setupService okHost exampleService
      (setupService okHost exampleService (freshSys [exampleService])).2).2.m.createdRules =
      ["10.0.0.1:80:tcp", "10.0.0.1:80:tcp"] ∧
    (setupService okHost exampleService
      (setupService okHost exampleService (freshSys [exampleService])).2).2.calls.filter
        isServiceCreate = [] := by
  decide

/-- The claim C4 fails as stated: for a service whose virtual address is written
`10.0.0.1/32`, on a host that accepts every command, `Setup` returns nil and records one
VIP binding, and `Cleanup` issues no address unbind at all. -/
theorem Cleanup_misses_binding :
    (Setup okHost false (freshRun () ⟨[cidrService], 9100⟩)).1 = none ∧
    (Setup okHost false (freshRun () ⟨[cidrService], 9100⟩)).2.m.createdVIPs =
      ["10.0.0.1/32/ipvs0"] ∧
    (issued (Setup okHost false (freshRun () ⟨[cidrService], 9100⟩)).2
      (Cleanup okHost false
        (Setup okHost false (freshRun () ⟨[cidrService], 9100⟩)).2)).filter isUnbind = [] := by
  decide

theorem serverAdds_no_create (svc : Service) (bs : List Backend) :
    ∀ x ∈ bs.map (serverAdd svc), isIfaceCreate x = false ∧ isServiceCreate x = false := by
  intro x hx
  obtain ⟨b, -, rfl⟩ := List.mem_map.1 hx
  simp [serverAdd, isIfaceCreate, isServiceCreate]

theorem filter_nil_of_forall {α : Type} (p : α → Bool) {l : List α}
    (h : ∀ x ∈ l, p x = false) : l.filter p = [] := by
  rw [List.filter_eq_nil_iff]
  intro x hx
  simpa using h x hx

/-- The commands of `setupService` when the interface is found: none creates an interface. -/
theorem no_ifaceCreate_when_found (svc : Service) (a c l : Bool) :
    ∀ x ∈ ifaceCalls (ifaceOf svc) true a ++ (vipCalls svc c ++ (serviceCalls svc l ++
      svc.Backends.map (serverAdd svc))), isIfaceCreate x = false := by
  have h : (ifaceCalls (ifaceOf svc) true a ++ (vipCalls svc c ++ serviceCalls svc l)).all
      (fun x => !isIfaceCreate x) = true := by
    cases a <;> cases c <;> cases l <;>
      simp [ifaceCalls, vipCalls, serviceCalls, isIfaceCreate]
  intro x hx
  rw [← List.append_assoc, ← List.append_assoc, List.mem_append] at hx
  rcases hx with hx | hx
  · rw [List.append_assoc] at hx
    simpa using List.all_eq_true.1 h x hx
  · exact (serverAdds_no_create svc _ x hx).1

/-- The commands of `setupService` when the virtual service is listed: none creates a virtual
service. -/
theorem no_serviceCreate_when_listed (svc : Service) (f a c : Bool) :
    ∀ x ∈ ifaceCalls (ifaceOf svc) f a ++ (vipCalls svc c ++ (serviceCalls svc true ++
      svc.Backends.map (serverAdd svc))), isServiceCreate x = false := by
  have h : (ifaceCalls (ifaceOf svc) f a ++ (vipCalls svc c ++ serviceCalls svc true)).all
      (fun x => !isServiceCreate x) = true := by
    cases f <;> cases a <;> cases c <;>
      simp [ifaceCalls, vipCalls, serviceCalls, isServiceCreate]
  intro x hx
  rw [← List.append_assoc, ← List.append_assoc, List.mem_append] at hx
  rcases hx with hx | hx
  · rw [List.append_assoc] at hx
    simpa using List.all_eq_true.1 h x hx
  · exact (serverAdds_no_create svc _ x hx).2

/-- The commands of a completed `setupService` when the virtual service is not listed: the
one create of the virtual service is among them. -/
theorem serviceCreate_when_not_listed (svc : Service) (f a c : Bool) :
    (ifaceCalls (ifaceOf svc) f a ++ (vipCalls svc c ++ (serviceCalls svc false ++
      svc.Backends.map (serverAdd svc)))).filter isServiceCreate =
      [⟨"ipvsadm", ["-A", "-t", svc.VIP ++ ":" ++ Itoa svc.LocalPort, "-s", "rr"]⟩] := by
  have hs : (svc.Backends.map (serverAdd svc)).filter isServiceCreate = [] :=
    filter_nil_of_forall _ (fun x hx => (serverAdds_no_create svc _ x hx).2)
  simp only [List.filter_append, hs]
  cases f <;> cases a <;> cases c <;>
    simp [ifaceCalls, vipCalls, serviceCalls, isServiceCreate, List.filter]

/-- C5, amended: a `setupService` that finds the interface of the service (its query, in the
state the call starts in, runs without error) appends nothing to `createdIfaces` and issues
no interface create; one that finds the virtual service (its listing, in the state the call
has reached by then, runs without error) issues no virtual-service create; and on every host
and state the service key is appended to `createdRules` exactly when the call returns nil,
whether the virtual service was found or, the listing having failed, was created by the one
create call the invocation then issues. -/
theorem setupService_idempotent {σ : Type} (H : Host σ) (svc : Service) (s : Sys σ) :
    ((H.command s.world ⟨"ip", ["link", "show", ifaceOf svc]⟩).1.1 = true →
      (setupService H svc s).2.m.createdIfaces = s.m.createdIfaces ∧
      (issued s (setupService H svc s).2).filter isIfaceCreate = []) ∧
    ((H.command (atListing H svc s).world
        ⟨"ipvsadm", ["-L", "-n", "-t", svc.VIP ++ ":" ++ Itoa svc.LocalPort]⟩).1.1 = true →
      (issued s (setupService H svc s).2).filter isServiceCreate = []) ∧
    (setupService H svc s).2.m.createdRules = s.m.createdRules ++
      (if (setupService H svc s).1 = none then [serviceKey svc] else []) ∧
    ((H.command (atListing H svc s).world
        ⟨"ipvsadm", ["-L", "-n", "-t", svc.VIP ++ ":" ++ Itoa svc.LocalPort]⟩).1.1 = false →
      (setupService H svc s).1 = none →
      (issued s (setupService H svc s).2).filter isServiceCreate =
        [⟨"ipvsadm", ["-A", "-t", svc.VIP ++ ":" ++ Itoa svc.LocalPort, "-s", "rr"]⟩]) := by
  obtain ⟨a, u, c, -, h⟩ := setupService_spec_at H svc s
  refine ⟨fun hif => ?_, fun hvs => ?_, (setupService_ledger H svc s).2.2.2.1,
    fun hvs hr => ?_⟩
  · rw [hif] at h
    by_cases hr : (setupService H svc s).1 = none
    · rw [if_pos hr] at h
      refine ⟨by rw [h.2]; simp, ?_⟩
      rw [h.1]
      exact filter_nil_of_forall _ (no_ifaceCreate_when_found svc a c _)
    · rw [if_neg hr] at h
      refine ⟨by rw [h.2]; simp, ?_⟩
      refine filter_prefix_nil _ h.1 (fun x hx => ?_)
      apply no_ifaceCreate_when_found svc a c _ x
      simp only [List.mem_append] at hx ⊢
      tauto
  · have hvs' : (H.command
        (addVIPToInterface H svc (createDummyInterface H (ifaceOf svc) s).2).2.world
        ⟨"ipvsadm", ["-L", "-n", "-t", svc.VIP ++ ":" ++ Itoa svc.LocalPort]⟩).1.1 = true := hvs
    rw [hvs'] at h
    by_cases hr : (setupService H svc s).1 = none
    · rw [if_pos hr] at h
      rw [h.1]
      exact filter_nil_of_forall _ (no_serviceCreate_when_listed svc _ a c)
    · rw [if_neg hr] at h
      refine filter_prefix_nil _ h.1 (fun x hx => ?_)
      apply no_serviceCreate_when_listed svc _ a c x
      simp only [List.mem_append] at hx ⊢
      tauto
  · have hvs' : (H.command
        (addVIPToInterface H svc (createDummyInterface H (ifaceOf svc) s).2).2.world
        ⟨"ipvsadm", ["-L", "-n", "-t", svc.VIP ++ ":" ++ Itoa svc.LocalPort]⟩).1.1 = false := hvs
    rw [hvs', if_pos hr] at h
    rw [h.1]
    exact serviceCreate_when_not_listed svc _ a c

/-- On a host that keeps state and starts with nothing, the first `setupService` for
10.0.0.1:80 finds neither the interface nor the virtual service: it creates both and records
both. The second one, on the state the first leaves, finds both: it appends nothing to
`createdIfaces`, issues no create call, and records the service key once more. -/
theorem setupService_idempotent_witness :
    (memHost.command (atListing memHost exampleService
        (freshRun [] ⟨[exampleService], 9100⟩)).world
      ⟨"ipvsadm", ["-L", "-n", "-t",
        exampleService.VIP ++ ":" ++ Itoa exampleService.LocalPort]⟩).1.1 = false ∧
    (setupService memHost exampleService (freshRun [] ⟨[exampleService], 9100⟩)).1 = none ∧
    (issued (freshRun [] ⟨[exampleService], 9100⟩)
      (setupService memHost exampleService
        (freshRun [] ⟨[exampleService], 9100⟩)).2).filter isServiceCreate =
      [⟨"ipvsadm", ["-A", "-t", "10.0.0.1:80", "-s", "rr"]⟩] ∧
    (issued (freshRun [] ⟨[exampleService], 9100⟩)
      (setupService memHost exampleService
        (freshRun [] ⟨[exampleService], 9100⟩)).2).filter isIfaceCreate =
      [⟨"ip", ["link", "add", "ipvs0", "type", "dummy"]⟩] ∧
    (setupService memHost exampleService
      (freshRun [] ⟨[exampleService], 9100⟩)).2.m.createdIfaces = ["ipvs0"] ∧
    (setupService memHost exampleService
      (freshRun [] ⟨[exampleService], 9100⟩)).2.m.createdRules = ["10.0.0.1:80:tcp"] ∧
    (memHost.command (setupService memHost exampleService
        (freshRun [] ⟨[exampleService], 9100⟩)).2.world
      ⟨"ip", ["link", "show", ifaceOf exampleService]⟩).1.1 = true ∧
    (memHost.command (atListing memHost exampleService
        (setupService memHost exampleService (freshRun [] ⟨[exampleService], 9100⟩)).2).world
      ⟨"ipvsadm", ["-L", "-n", "-t",
        exampleService.VIP ++ ":" ++ Itoa exampleService.LocalPort]⟩).1.1 = true ∧
    (setupService memHost exampleService
      (setupService memHost exampleService
        (freshRun [] ⟨[exampleService], 9100⟩)).2).2.m.createdIfaces = ["ipvs0"] ∧
    (issued (setupService memHost exampleService (freshRun [] ⟨[exampleService], 9100⟩)).2
      (setupService memHost exampleService
        (setupService memHost exampleService
          (freshRun [] ⟨[exampleService], 9100⟩)).2).2).filter isIfaceCreate = [] ∧
    (issued (setupService memHost exampleService (freshRun [] ⟨[exampleService], 9100⟩)).2
      (setupService memHost exampleService
        (setupService memHost exampleService
          (freshRun [] ⟨[exampleService], 9100⟩)).2).2).filter isServiceCreate = [] ∧
    (setupService memHost exampleService
      (setupService memHost exampleService
        (freshRun [] ⟨[exampleService], 9100⟩)).2).2.m.createdRules =
      ["10.0.0.1:80:tcp", "10.0.0.1:80:tcp"] := by
  have h0 := setupService_idempotent memHost exampleService
    (freshRun [] ⟨[exampleService], 9100⟩)
  have h1 := setupService_idempotent memHost exampleService
    (setupService memHost exampleService (freshRun [] ⟨[exampleService], 9100⟩)).2
  have e1 : (setupService memHost exampleService
      (freshRun [] ⟨[exampleService], 9100⟩)).2.m.createdIfaces = ["ipvs0"] := by decide
  refine ⟨by decide, by decide, h0.2.2.2 (by decide) (by decide), by decide, e1, by decide,
    by decide, by decide, ?_, (h1.1 (by decide)).2, h1.2.1 (by decide), ?_⟩
  · rw [(h1.1 (by decide)).1, e1]
  · rw [h1.2.2.1]
    decide

/-! ## Ledger completeness -/

theorem digitChar_ne_colon (m : Nat) : Nat.digitChar (m % 10) ≠ ':' := by
  have h : m % 10 < 10 := Nat.mod_lt _ (by decide)
  interval_cases m % 10 <;> decide

theorem toDigitsCore_no_colon (fuel n : Nat) (ds : List Char) (h : ':' ∉ ds) :
    ':' ∉ Nat.toDigitsCore 10 fuel n ds := by
  induction fuel generalizing n ds with
  | zero => simpa [Nat.toDigitsCore] using h
  | succ f ih =>
    simp only [Nat.toDigitsCore]
    split_ifs
    · simp only [List.mem_cons, not_or]
      exact ⟨fun e => digitChar_ne_colon _ e.symm, h⟩
    · apply ih
      simp only [List.mem_cons, not_or]
      exact ⟨fun e => digitChar_ne_colon _ e.symm, h⟩

/-- The decimal rendering of an integer has no colon. -/
theorem Itoa_no_colon (n : Int) : ':' ∉ (Itoa n).data := by
  unfold Itoa
  cases n with
  | ofNat m =>
    show ':' ∉ (Nat.repr m).data
    simp only [Nat.repr, Nat.toDigits, List.asString]
    exact toDigitsCore_no_colon _ _ _ (by simp)
  | negSucc m =>
    show ':' ∉ ("-" ++ Nat.repr (m + 1)).data
    simp only [String.data_append, List.mem_append, not_or, Nat.repr, Nat.toDigits,
      List.asString]
    exact ⟨by decide, toDigitsCore_no_colon _ _ _ (by simp)⟩

theorem splitChars_append (sep : Char) (a rest : List Char) (h : sep ∉ a) :
    splitChars sep (a ++ sep :: rest) = a :: splitChars sep rest := by
  induction a with
  | nil => simp [splitChars]
  | cons c a ih =>
    have hc : c ≠ sep := fun e => h (by simp [e])
    have ha : sep ∉ a := fun e => h (by simp [e])
    simp [splitChars, hc, ih ha]

theorem splitChars_none (sep : Char) (a : List Char) (h : sep ∉ a) :
    splitChars sep a = [a] := by
  induction a with
  | nil => simp [splitChars]
  | cons c a ih =>
    have hc : c ≠ sep := fun e => h (by simp [e])
    have ha : sep ∉ a := fun e => h (by simp [e])
    simp [splitChars, hc, ih ha]

/-- The key of a service splits back into its address and port when the address has no
colon. -/
theorem Split_serviceKey (svc : Service) (h : ':' ∉ svc.VIP.data) :
    ∃ tail, Split (serviceKey svc) ':' = svc.VIP :: Itoa svc.LocalPort :: tail := by
  refine ⟨(splitChars ':' (protoOf svc).data).map String.mk, ?_⟩
  have e : (serviceKey svc).data =
      svc.VIP.data ++ ':' :: ((Itoa svc.LocalPort).data ++ ':' :: (protoOf svc).data) := by
    simp [serviceKey, String.data_append]
  rw [Split, e, splitChars_append _ _ _ h, splitChars_append _ _ _ (Itoa_no_colon _)]
  rfl

/-- The key of a VIP binding splits back into the address and the interface when neither has
a slash. -/
theorem Split_vipKey (svc : Service) (h1 : '/' ∉ svc.VIP.data) (h2 : '/' ∉ (ifaceOf svc).data) :
    Split (vipKey svc) '/' = [svc.VIP, ifaceOf svc] := by
  have e : (vipKey svc).data = svc.VIP.data ++ '/' :: (ifaceOf svc).data := by
    simp [vipKey, String.data_append]
  rw [Split, e, splitChars_append _ _ _ h1, splitChars_none _ _ h2]
  rfl

theorem ruleDeletes_cons (k : String) (ks : List String) :
    ruleDeletes (k :: ks) =
      (match Split k ':' with
        | p0 :: p1 :: _ => [(⟨"ipvsadm", ["-D", "-t", p0 ++ ":" ++ p1]⟩ : Cmd)]
        | _ => []) ++ ruleDeletes ks := rfl

theorem vipDeletes_cons (k : String) (ks : List String) :
    vipDeletes (k :: ks) =
      (match Split k '/' with
        | [p0, p1] => [(⟨"ip", ["addr", "del", p0 ++ "/32", "dev", p1]⟩ : Cmd)]
        | _ => []) ++ vipDeletes ks := rfl

theorem ruleDeletes_keys (l : List Service) (h : ∀ svc ∈ l, ':' ∉ svc.VIP.data) :
    ruleDeletes (l.map serviceKey) = l.map serviceDelete := by
  induction l with
  | nil => rfl
  | cons svc rest ih =>
    obtain ⟨tail, ht⟩ := Split_serviceKey svc (h svc (by simp))
    rw [List.map_cons, ruleDeletes_cons, ht, ih (fun x hx => h x (by simp [hx]))]
    rfl

theorem vipDeletes_keys (l : List Service)
    (h : ∀ svc ∈ l, '/' ∉ svc.VIP.data ∧ '/' ∉ (ifaceOf svc).data) :
    vipDeletes (l.map vipKey) = l.map vipUnbind := by
  induction l with
  | nil => rfl
  | cons svc rest ih =>
    have ht := Split_vipKey svc (h svc (by simp)).1 (h svc (by simp)).2
    rw [List.map_cons, vipDeletes_cons, ht, ih (fun x hx => h x (by simp [hx]))]
    rfl

theorem filter_all_self {α : Type} (p : α → Bool) (l : List α) (h : l.all p = true) :
    l.filter p = l := by
  rw [List.filter_eq_self]
  exact fun x hx => List.all_eq_true.1 h x hx

theorem filter_all_other {α : Type} (p q : α → Bool) (l : List α) (h : l.all q = true)
    (hex : ∀ x, q x = true → p x = false) : l.filter p = [] := by
  rw [List.filter_eq_nil_iff]
  intro x hx
  simp [hex x (List.all_eq_true.1 h x hx)]

theorem serviceDelete_excl (c : Cmd) (h : isServiceDelete c = true) :
    isUnbind c = false ∧ isIfaceDelete c = false ∧ isNatDelete c = false := by
  obtain ⟨n, a⟩ := c
  simp only [isServiceDelete, Bool.and_eq_true, decide_eq_true_eq] at h
  obtain ⟨rfl, -⟩ := h
  simp [isUnbind, isIfaceDelete, isNatDelete]

theorem unbind_excl (c : Cmd) (h : isUnbind c = true) :
    isServiceDelete c = false ∧ isIfaceDelete c = false ∧ isNatDelete c = false := by
  obtain ⟨n, a⟩ := c
  simp only [isUnbind, Bool.and_eq_true, decide_eq_true_eq] at h
  obtain ⟨rfl, ha⟩ := h
  simp [isServiceDelete, isIfaceDelete, isNatDelete, ha]

theorem ifaceDelete_excl (c : Cmd) (h : isIfaceDelete c = true) :
    isServiceDelete c = false ∧ isUnbind c = false ∧ isNatDelete c = false := by
  obtain ⟨n, a⟩ := c
  simp only [isIfaceDelete, Bool.and_eq_true, decide_eq_true_eq] at h
  obtain ⟨rfl, ha⟩ := h
  simp [isServiceDelete, isUnbind, isNatDelete, ha]

theorem natDelete_excl (c : Cmd) (h : isNatDelete c = true) :
    isServiceDelete c = false ∧ isUnbind c = false ∧ isIfaceDelete c = false := by
  obtain ⟨n, a⟩ := c
  simp only [isNatDelete, Bool.and_eq_true, decide_eq_true_eq] at h
  obtain ⟨rfl, -⟩ := h
  simp [isServiceDelete, isUnbind, isIfaceDelete]

theorem sysctlWrite_excl (c : Cmd) (h : isSysctlWrite c = true) :
    isServiceDelete c = false ∧ isUnbind c = false ∧ isIfaceDelete c = false ∧
      isNatDelete c = false := by
  obtain ⟨n, a⟩ := c
  simp only [isSysctlWrite, Bool.and_eq_true, decide_eq_true_eq] at h
  obtain ⟨rfl, -⟩ := h
  simp [isServiceDelete, isUnbind, isIfaceDelete, isNatDelete]

/-- The commands of `Cleanup` sorted by kind: each of the first four groups is what the
filter of its kind keeps. -/
theorem Cleanup_filters (rules vips ifaces : List String) (ip : String)
    (services : List Service) (captured : List (String × String)) :
    (ruleDeletes rules ++ (vipDeletes vips ++ (ifaceDeletes ifaces ++
      (services.map (natDelete ip) ++ sysctlRestores captured)))).filter isServiceDelete =
        ruleDeletes rules ∧
    (ruleDeletes rules ++ (vipDeletes vips ++ (ifaceDeletes ifaces ++
      (services.map (natDelete ip) ++ sysctlRestores captured)))).filter isUnbind =
        vipDeletes vips ∧
    (ruleDeletes rules ++ (vipDeletes vips ++ (ifaceDeletes ifaces ++
      (services.map (natDelete ip) ++ sysctlRestores captured)))).filter isIfaceDelete =
        ifaceDeletes ifaces ∧
    (ruleDeletes rules ++ (vipDeletes vips ++ (ifaceDeletes ifaces ++
      (services.map (natDelete ip) ++ sysctlRestores captured)))).filter isNatDelete =
        services.map (natDelete ip) := by
  have k1 := ruleDeletes_kind rules
  have k2 := vipDeletes_kind vips
  have k3 := ifaceDeletes_kind ifaces
  have k4 := natDeletes_kind ip services
  have k5 := sysctlRestores_kind captured
  refine ⟨?_, ?_, ?_, ?_⟩
  · rw [List.filter_append, List.filter_append, List.filter_append, List.filter_append,
      filter_all_self _ _ k1,
      filter_all_other _ _ _ k2 (fun x h => (unbind_excl x h).1),
      filter_all_other _ _ _ k3 (fun x h => (ifaceDelete_excl x h).1),
      filter_all_other _ _ _ k4 (fun x h => (natDelete_excl x h).1),
      filter_all_other _ _ _ k5 (fun x h => (sysctlWrite_excl x h).1)]
    simp
  · rw [List.filter_append, List.filter_append, List.filter_append, List.filter_append,
      filter_all_self _ _ k2,
      filter_all_other _ _ _ k1 (fun x h => (serviceDelete_excl x h).1),
      filter_all_other _ _ _ k3 (fun x h => (ifaceDelete_excl x h).2.1),
      filter_all_other _ _ _ k4 (fun x h => (natDelete_excl x h).2.1),
      filter_all_other _ _ _ k5 (fun x h => (sysctlWrite_excl x h).2.1)]
    simp
  · rw [List.filter_append, List.filter_append, List.filter_append, List.filter_append,
      filter_all_self _ _ k3,
      filter_all_other _ _ _ k1 (fun x h => (serviceDelete_excl x h).2.1),
      filter_all_other _ _ _ k2 (fun x h => (unbind_excl x h).2.1),
      filter_all_other _ _ _ k4 (fun x h => (natDelete_excl x h).2.2),
      filter_all_other _ _ _ k5 (fun x h => (sysctlWrite_excl x h).2.2.1)]
    simp
  · rw [List.filter_append, List.filter_append, List.filter_append, List.filter_append,
      filter_all_self _ _ k4,
      filter_all_other _ _ _ k1 (fun x h => (serviceDelete_excl x h).2.2),
      filter_all_other _ _ _ k2 (fun x h => (unbind_excl x h).2.2),
      filter_all_other _ _ _ k3 (fun x h => (ifaceDelete_excl x h).2.2),
      filter_all_other _ _ _ k5 (fun x h => (sysctlWrite_excl x h).2.2.2)]
    simp

/-- C4, amended: after a `Setup` that returned nil on a fresh manager, for services whose
virtual address has no colon and no slash and whose interface name has no slash, `Cleanup`
issues exactly one virtual-service delete per recorded service key, addressed to the
`VIP:LocalPort` of the key, exactly one unbind of `VIP/32` on the interface per recorded VIP
key, exactly one interface delete per recorded interface and exactly one NAT-rule delete per
recorded NAT rule, and no other command of these kinds. -/
theorem Cleanup_removes_ledger {σ : Type} (H : Host σ) (rev rev' : Bool) (w : σ)
    (conf : Config)
    (hok : (Setup H rev (freshRun w conf)).1 = none)
    (hshape : ∀ svc ∈ conf.Services,
      ':' ∉ svc.VIP.data ∧ '/' ∉ svc.VIP.data ∧ '/' ∉ (ifaceOf svc).data) :
    ∃ localIP : String,
      (Setup H rev (freshRun w conf)).2.m.createdRules = conf.Services.map serviceKey ∧
      (issued (Setup H rev (freshRun w conf)).2
        (Cleanup H rev' (Setup H rev (freshRun w conf)).2)).filter isServiceDelete =
          conf.Services.map serviceDelete ∧
      (Setup H rev (freshRun w conf)).2.m.createdVIPs = conf.Services.map vipKey ∧
      (issued (Setup H rev (freshRun w conf)).2
        (Cleanup H rev' (Setup H rev (freshRun w conf)).2)).filter isUnbind =
          conf.Services.map vipUnbind ∧
      (issued (Setup H rev (freshRun w conf)).2
        (Cleanup H rev' (Setup H rev (freshRun w conf)).2)).filter isIfaceDelete =
          (Setup H rev (freshRun w conf)).2.m.createdIfaces.map
            (fun iface => ⟨"ip", ["link", "del", iface]⟩) ∧
      (Setup H rev (freshRun w conf)).2.m.createdSNATRules.length = conf.Services.length ∧
      (issued (Setup H rev (freshRun w conf)).2
        (Cleanup H rev' (Setup H rev (freshRun w conf)).2)).filter isNatDelete =
          conf.Services.map (natDelete localIP) := by
  obtain ⟨hconf, hled⟩ := Setup_ledger H rev (freshRun w conf)
  obtain ⟨l1, l2, l3⟩ := hled hok
  obtain ⟨ip, hclean, -⟩ := Cleanup_spec H rev' (Setup H rev (freshRun w conf)).2
  have hiss := issued_append _ _ _ hclean
  have e1 : (Setup H rev (freshRun w conf)).2.m.createdRules = conf.Services.map serviceKey := by
    simpa [freshRun, NewIPVSManager] using l1
  have e2 : (Setup H rev (freshRun w conf)).2.m.createdVIPs = conf.Services.map vipKey := by
    simpa [freshRun, NewIPVSManager] using l2
  have e3 : (Setup H rev (freshRun w conf)).2.m.createdSNATRules.length =
      conf.Services.length := by
    simpa [freshRun, NewIPVSManager] using l3
  have e4 : (Setup H rev (freshRun w conf)).2.m.config.Services = conf.Services := by
    rw [hconf]; rfl
  obtain ⟨f1, f2, f3, f4⟩ := Cleanup_filters (Setup H rev (freshRun w conf)).2.m.createdRules
    (Setup H rev (freshRun w conf)).2.m.createdVIPs
    (Setup H rev (freshRun w conf)).2.m.createdIfaces ip
    (Setup H rev (freshRun w conf)).2.m.config.Services
    (rangeOrder rev' (Setup H rev (freshRun w conf)).2.m.originalSysctls)
  refine ⟨ip, e1, ?_, e2, ?_, ?_, e3, ?_⟩
  · rw [hiss, f1, e1]
    exact ruleDeletes_keys _ (fun svc hs => (hshape svc hs).1)
  · rw [hiss, f2, e2]
    exact vipDeletes_keys _ (fun svc hs => (hshape svc hs).2)
  · rw [hiss, f3]; rfl
  · rw [hiss, f4, e4]

/-- The service 10.0.0.1:80 on a host that accepts every command: `Setup` returns nil, and
`Cleanup` issues the one delete of 10.0.0.1:80 and the one unbind of 10.0.0.1/32 from
ipvs0. -/
theorem Cleanup_removes_ledger_witness :
    (Setup okHost false (freshRun () ⟨[exampleService], 9100⟩)).1 = none ∧
    (∀ svc ∈ [exampleService],
      ':' ∉ svc.VIP.data ∧ '/' ∉ svc.VIP.data ∧ '/' ∉ (ifaceOf svc).data) ∧
    (issued (Setup okHost false (freshRun () ⟨[exampleService], 9100⟩)).2
      (Cleanup okHost false
        (Setup okHost false (freshRun () ⟨[exampleService], 9100⟩)).2)).filter isServiceDelete =
      [⟨"ipvsadm", ["-D", "-t", "10.0.0.1:80"]⟩] ∧
    (issued (Setup okHost false (freshRun () ⟨[exampleService], 9100⟩)).2
      (Cleanup okHost false
        (Setup okHost false (freshRun () ⟨[exampleService], 9100⟩)).2)).filter isUnbind =
      [⟨"ip", ["addr", "del", "10.0.0.1/32", "dev", "ipvs0"]⟩] := by
  obtain ⟨ip, -, h2, -, h4, -⟩ := Cleanup_removes_ledger okHost false false ()
    ⟨[exampleService], 9100⟩ (by decide) (by decide)
  refine ⟨by decide, by decide, ?_, ?_⟩
  · rw [h2]; decide
  · rw [h4]; decide


/-! ## The VIP presence pass -/

/-- Every field of a line is a run of consecutive characters of the line. -/
theorem fieldsFrom_infix (cs cur : List Char) :
    ∀ f ∈ fieldsFrom cs cur, ∃ pre post, cur.reverse ++ cs = pre ++ (f.data ++ post) := by
  induction cs generalizing cur with
  | nil =>
    intro f hf
    by_cases h : cur = []
    · simp [fieldsFrom, h] at hf
    · simp [fieldsFrom, h] at hf
      subst hf
      exact ⟨[], [], by simp⟩
  | cons c cs ih =>
    intro f hf
    by_cases hs : isSpace c = true
    · by_cases h : cur = []
      · simp [fieldsFrom, hs, h] at hf
        obtain ⟨pre, post, e⟩ := ih [] f hf
        refine ⟨c :: pre, post, ?_⟩
        simp only [List.reverse_nil, List.nil_append] at e
        simp [h, e]
      · simp [fieldsFrom, hs, h] at hf
        rcases hf with hf | hf
        · subst hf
          exact ⟨[], c :: cs, by simp⟩
        · obtain ⟨pre, post, e⟩ := ih [] f hf
          refine ⟨cur.reverse ++ c :: pre, post, ?_⟩
          simp only [List.reverse_nil, List.nil_append] at e
          simp [e]
    · simp [fieldsFrom, hs] at hf
      obtain ⟨pre, post, e⟩ := ih (c :: cur) f hf
      refine ⟨pre, post, ?_⟩
      rw [← e]
      simp

/-- The search of `strings.Contains` finds every run of consecutive characters. -/
theorem containsChars_of_infix (sub pre post : List Char) :
    containsChars sub (pre ++ (sub ++ post)) = true := by
  induction pre with
  | nil =>
    cases h : sub ++ post with
    | nil =>
      have : sub = [] := by
        cases sub with
        | nil => rfl
        | cons a t => simp at h
      simp [containsChars, this]
    | cons c cs =>
      simp only [List.nil_append, h, containsChars, Bool.or_eq_true]
      left
      rw [← h]
      exact List.isPrefixOf_iff_prefix.2 (List.prefix_append _ _)
  | cons p pre ih =>
    simp only [List.cons_append, containsChars, Bool.or_eq_true]
    exact Or.inr ih

/-- A listing that shows an address itself bound with the /32 mask contains the text
`VIP/32`. -/
theorem Contains_of_showsBound (output vip : String) (h : showsBound output vip = true) :
    Contains output (vip ++ "/32") = true := by
  simp only [showsBound, List.contains_iff_exists_mem_beq, beq_iff_eq] at h
  obtain ⟨f, hf, rfl⟩ := h
  obtain ⟨pre, post, e⟩ := fieldsFrom_infix output.data [] _ hf
  simp only [List.reverse_nil, List.nil_append] at e
  unfold Contains
  rw [e]
  exact containsChars_of_infix _ _ _

/-- The loop of `updateVIPStatus`: one status write per configured service, in order, and
nothing else. -/
theorem updateVIPStatusLoop_spec {σ : Type} (output : String) (l : List Service) (s : Sys σ) :
    (updateVIPStatusLoop output l s).m.metrics = s.m.metrics ++ l.map (vipStatusSample output) ∧
    (updateVIPStatusLoop output l s).calls = s.calls ∧
    (updateVIPStatusLoop output l s).m.config = s.m.config := by
  induction l generalizing s with
  | nil => simp [updateVIPStatusLoop]
  | cons svc rest ih =>
    simp only [updateVIPStatusLoop, ih]
    simp [vipStatusSample]

/-- The value left published for a key by writes that all carry the same value for it. -/
theorem published_of_agree (log new : List Sample) (g : Gauge) (k : List String) (v : Value)
    (hex : ∃ x ∈ new, x.gauge = g ∧ x.labels = k)
    (hall : ∀ x ∈ new, x.gauge = g ∧ x.labels = k → x.value = v) :
    published (log ++ new) g k = some v := by
  rw [published_append]
  unfold published
  cases h : List.find? (fun x => decide (x.gauge = g ∧ x.labels = k)) new.reverse with
  | none =>
    obtain ⟨x, hx, hp⟩ := hex
    have := List.find?_eq_none.1 h x (by simpa using hx)
    simp [hp] at this
  | some x =>
    have hm : x ∈ new := by simpa using List.mem_of_find?_eq_some h
    have hp := List.find?_some h
    simp only [decide_eq_true_eq] at hp
    simp [hall x hm hp]

/-- C11, amended: `updateVIPStatus` lists the addresses once and writes, for every configured
service in order, the status gauge under the labels VIP, interface (`ipvs0` unless
configured) and business (`default` unless configured); the value it leaves published for a
configured service is 1 exactly when the text of the listing contains `VIP/32` somewhere, and
0 otherwise; in particular it is 1 whenever the listing shows the address itself bound with
the /32 mask. -/
theorem updateVIPStatus_spec {σ : Type} (H : Host σ) (s : Sys σ) :
    (updateVIPStatus H s).calls = s.calls ++ [⟨"ip", ["addr", "show"]⟩] ∧
    (updateVIPStatus H s).m.metrics = s.m.metrics ++
      s.m.config.Services.map
        (vipStatusSample (H.command s.world ⟨"ip", ["addr", "show"]⟩).1.2) ∧
    (∀ svc ∈ s.m.config.Services,
      published (updateVIPStatus H s).m.metrics Gauge.VipStatus
          [svc.VIP, ifaceOf svc, businessLabel svc] =
        some (Value.ofInt
          (if Contains (H.command s.world ⟨"ip", ["addr", "show"]⟩).1.2 (svc.VIP ++ "/32")
            then 1 else 0))) ∧
    (∀ svc ∈ s.m.config.Services,
      showsBound (H.command s.world ⟨"ip", ["addr", "show"]⟩).1.2 svc.VIP = true →
      published (updateVIPStatus H s).m.metrics Gauge.VipStatus
          [svc.VIP, ifaceOf svc, businessLabel svc] = some (Value.ofInt 1)) := by
  obtain ⟨h1, h2, -⟩ := updateVIPStatusLoop_spec (exec H ⟨"ip", ["addr", "show"]⟩ s).1.2
    (exec H ⟨"ip", ["addr", "show"]⟩ s).2.m.config.Services (exec H ⟨"ip", ["addr", "show"]⟩ s).2
  simp only [exec_result, exec_m, exec_calls] at h1 h2
  have hu : updateVIPStatus H s = updateVIPStatusLoop
      (H.command s.world ⟨"ip", ["addr", "show"]⟩).1.2 s.m.config.Services
      (exec H ⟨"ip", ["addr", "show"]⟩ s).2 := rfl
  rw [hu]
  have hpub : ∀ svc ∈ s.m.config.Services,
      published (updateVIPStatusLoop
          (H.command s.world ⟨"ip", ["addr", "show"]⟩).1.2 s.m.config.Services
          (exec H ⟨"ip", ["addr", "show"]⟩ s).2).m.metrics Gauge.VipStatus
          [svc.VIP, ifaceOf svc, businessLabel svc] =
        some (Value.ofInt
          (if Contains (H.command s.world ⟨"ip", ["addr", "show"]⟩).1.2 (svc.VIP ++ "/32")
            then 1 else 0)) := by
    intro svc hsvc
    rw [h1]
    apply published_of_agree
    · exact ⟨vipStatusSample _ svc, List.mem_map.2 ⟨svc, hsvc, rfl⟩, rfl, rfl⟩
    · intro x hx hk
      obtain ⟨svc', -, rfl⟩ := List.mem_map.1 hx
      have hv : svc'.VIP = svc.VIP := by
        have := hk.2
        simp only [vipStatusSample, List.cons.injEq] at this
        exact this.1
      simp [vipStatusSample, hv]
  refine ⟨h2, h1, hpub, fun svc hsvc hb => ?_⟩
  rw [hpub svc hsvc, Contains_of_showsBound _ _ hb]
  rfl

/-- A listing that shows 10.0.0.1/32 on ipvs0, with 10.0.0.1 configured and nothing said of
interface or business: the status published under 10.0.0.1, ipvs0, default is 1. -/
theorem updateVIPStatus_spec_witness :
    exampleService ∈ (freshRun () ⟨[exampleService], 9100⟩ : Sys Unit).m.config.Services ∧
    showsBound (listingHost.command () ⟨"ip", ["addr", "show"]⟩).1.2 exampleService.VIP = true ∧
    published (updateVIPStatus listingHost (freshRun () ⟨[exampleService], 9100⟩)).m.metrics
      Gauge.VipStatus ["10.0.0.1", "ipvs0", "default"] = some (Value.ofInt 1) :=
  ⟨by decide, by decide,
    (updateVIPStatus_spec listingHost (freshRun () ⟨[exampleService], 9100⟩)).2.2.2
      exampleService (by decide) (by decide)⟩

/-- The claim C11 fails as stated: with 0.0.0.1 configured and a listing whose only address
is 10.0.0.1/32, the listing does not show 0.0.0.1 bound, yet `updateVIPStatus` publishes the
status 1 for 0.0.0.1, because 0.0.0.1/32 is the tail of 10.0.0.1/32. -/
theorem updateVIPStatus_tail_match :
    showsBound (listingHost.command () ⟨"ip", ["addr", "show"]⟩).1.2 "0.0.0.1" = false ∧
    published (updateVIPStatus listingHost (freshRun () ⟨[tailService], 9100⟩)).m.metrics
      Gauge.VipStatus ["0.0.0.1", "ipvs0", "default"] = some (Value.ofInt 1) := by
  decide

end ChaosLB
